import Mathlib

/-!
Shallow embedding of the mayaserver provisioning transformation engine:
the jiva property-resolution / address-allocation pipeline
(`lib/volume/jiva/util.go`), the Nomad datacenter configuration lookups
(`lib/orchprovider/nomad/util.go`), and the Nomad topology builder and
status reconciler (`lib/orchprovider/nomad/helper_funcs.go`).

Go maps with `string` keys are embedded as association lists read through
`mapGet` (a missing key reads as `""`, as in Go) and written through
`mapSet`.  Fallible Go functions returning `(T, error)` become
`Except Err T`.  Nil-able pointers become `Option`.
-/

namespace Maya

/-- Error values: each constructor corresponds to one `fmt.Errorf` site in
the source (or one error class of the spec's taxonomy). -/
inductive Err where
  | nilClaim
  | missingVSMName
  | missingLabels
  | missingStorageSpecs
  | invalidStorageSize
  | missingProperty (key : String)
  | invalidReplicaCount (s : String)
  | replicaIPCountMismatch (ipCount : Nat) (replicaCount : Int)
  | invalidCIDR (s : String)
  | addressPoolExhausted
  | regionNotDetermined
  | dcNotDetermined
  | dcNotProvided
  | emptyDCName
  | nilNomadConf
  | nilConfDatacenters
  | dcNotFound (dc : String)
  | invalidConfReplicaCount (s : String)
  | zeroConfReplicaCount
  | networkCIDRNotDetermined
  | nilJob
  | nilEvaluation
  | nilVolume
deriving DecidableEq, Repr

/-- Equality of embedded fallible results is decidable. -/
instance {ε α : Type} [DecidableEq ε] [DecidableEq α] : DecidableEq (Except ε α) := fun x y =>
  match x, y with
  | .ok a, .ok b =>
    if h : a = b then isTrue (by rw [h]) else isFalse (fun hc => h (by injection hc))
  | .error a, .error b =>
    if h : a = b then isTrue (by rw [h]) else isFalse (fun hc => h (by injection hc))
  | .ok _, .error _ => isFalse (fun hc => Except.noConfusion hc)
  | .error _, .ok _ => isFalse (fun hc => Except.noConfusion hc)

/-- Go map read: the value bound to `k`, or `""` when `k` is absent
(Go's zero value for `string`). -/
def mapGet (m : List (String × String)) (k : String) : String :=
  match m.find? (fun p => p.1 == k) with
  | some p => p.2
  | none => ""

/-- Go map write: replace the binding of `k` when present, append it
otherwise. -/
def mapSet (m : List (String × String)) (k v : String) : List (String × String) :=
  if (m.find? (fun p => p.1 == k)).isSome then
    m.map (fun p => if p.1 == k then (k, v) else p)
  else
    m ++ [(k, v)]

/-- Go map read for integer-valued maps (resource requests); a missing key
reads as the zero quantity. -/
def reqGet (m : List (String × Int)) (k : String) : Int :=
  match m.find? (fun p => p.1 == k) with
  | some p => p.2
  | none => 0

/-- Go map write for integer-valued maps. -/
def reqSet (m : List (String × Int)) (k : String) (v : Int) : List (String × Int) :=
  if (m.find? (fun p => p.1 == k)).isSome then
    m.map (fun p => if p.1 == k then (k, v) else p)
  else
    m ++ [(k, v)]

/-- The merge loops of `setCS` and `setCN`
(`for k := range cs { if pvc.Labels[k] == "" { pvc.Labels[k] = cs[k] } }`):
every default key that is still empty on the claim is filled in. -/
def mergeDefaults (l : List (String × String)) (ds : List (String × String)) :
    List (String × String) :=
  ds.foldl (fun acc kv => if mapGet acc kv.1 == "" then mapSet acc kv.1 kv.2 else acc) l

/-- Split a character list at every occurrence of `sep`; mirrors Go's
`strings.Split` for a one-character separator (so splitting the empty
string yields one empty field). -/
def splitChar (sep : Char) : List Char → List (List Char)
  | [] => [[]]
  | c :: rest =>
    if c = sep then [] :: splitChar sep rest
    else
      match splitChar sep rest with
      | [] => [[c]]
      | g :: gs => (c :: g) :: gs

/-- Go's `strings.Split(s, ",")`. -/
def splitComma (s : String) : List String :=
  (splitChar ',' s.data).map (fun cs => String.mk cs)

/-- Numeric value of a decimal digit character. -/
def digitVal (c : Char) : Option Nat :=
  if '0' ≤ c ∧ c ≤ '9' then some (c.toNat - 48) else none

/-- Accumulating decimal parser over a digit character list. -/
def parseDigitsAux (acc : Nat) : List Char → Option Nat
  | [] => some acc
  | c :: cs =>
    match digitVal c with
    | some d => parseDigitsAux (acc * 10 + d) cs
    | none => none

/-- Parse a non-empty all-digit character list as a natural number. -/
def parseDigits : List Char → Option Nat
  | [] => none
  | cs => parseDigitsAux 0 cs

/-- Go's `strconv.Atoi`: an optional sign followed by one or more decimal
digits; anything else is a parse error. -/
def atoi (s : String) : Option Int :=
  match s.data with
  | '+' :: ds => (parseDigits ds).map (fun n => (n : Int))
  | '-' :: ds => (parseDigits ds).map (fun n => -(n : Int))
  | ds => (parseDigits ds).map (fun n => (n : Int))

/-- The decimal digit character for `d < 10`. -/
def digitChar (d : Nat) : Char := Char.ofNat (48 + d)

/-- Little-endian decimal digit-character expansion, fuelled so that it
reduces structurally; `fuel ≥ n` always suffices. -/
def natToRevCharsAux : Nat → Nat → List Char
  | 0, _ => []
  | fuel + 1, n => if n = 0 then [] else digitChar (n % 10) :: natToRevCharsAux fuel (n / 10)

/-- Little-endian decimal digit-character expansion of a natural number. -/
def natToRevChars (n : Nat) : List Char := natToRevCharsAux n n

/-- Decimal rendering of a natural number. -/
def natToStr (n : Nat) : String :=
  if n = 0 then "0" else String.mk (natToRevChars n).reverse

/-- Go's `strconv.Itoa`. -/
def intToStr (i : Int) : String :=
  if i < 0 then "-" ++ natToStr (-i).toNat else natToStr i.toNat

/-! ### Label keys

The label-key constants live in `lib/api/v1` and `lib/api/v1/jiva`, which
are not part of the sources at hand; only their names appear at the use
sites.  Modelled from the spec: the spec's PropertySet has a single key
per property (region, datacenter, controller image, controller IP(s),
replica IP(s), replica count, network type, subnet, interface,
persistence location, storage size), so each pair of synonymous
constants across the two packages (e.g. `v1jiva.JivaFrontEndIPLbl` /
`v1.PVPControllerIPsLbl`, `v1.CSReplicaCountLbl` /
`v1.PVPReplicaCountLbl`) is embedded as one shared key. -/

def regionLbl : String := "region"

def dcLbl : String := "datacenter"

def ctrlImageLbl : String := "controllerImage"

def ctrlIPLbl : String := "controllerIP"

def replicaIPsLbl : String := "replicaIPs"

def replicaCountLbl : String := "replicaCount"

def cnTypeLbl : String := "cnType"

def cnNetworkCIDRLbl : String := "cnNetworkCIDR"

def cnSubnetLbl : String := "cnSubnet"

def cnInterfaceLbl : String := "cnInterface"

def persistLocLbl : String := "persistenceLocation"

def storageSizeLbl : String := "storageSize"

/-- `v1jiva.JivaBackEndIPPrefixLbl`: per-replica metadata keys are this
followed by the replica ordinal. -/
def beIPOrdinalLbl : String := "backendIP"

/-- `v1jiva.JivaFrontEndVolSizeLbl` (a resource-request key). -/
def feVolSizeLbl : String := "feVolSize"

/-- `v1jiva.JivaBackEndVolSizeLbl` (a resource-request key, also used as
a job-metadata key). -/
def beVolSizeLbl : String := "beVolSize"

/-- `v1jiva.JivaTargetPortalLbl`. -/
def targetPortalLbl : String := "targetPortal"

/-- `v1jiva.JivaIqnLbl`. -/
def iqnLbl : String := "iqn"

/-- `v1.JivaISCSIPortDef`. -/
def jivaISCSIPortDef : String := "3260"

/-- `v1.JivaIqnFormatPrefix`. -/
def jivaIqnFormatPfx : String := "iqn.2016-09.com.openebs.jiva"

/-- `structs.JobStatusRunning` from the Nomad structs package. -/
def JobStatusRunning : String := "running"

/-! ### Network helper (`lib/nethelper`)

`lib/nethelper` is code of this repository that is not among the sources
at hand; only its callers are.  The definitions below are modelled from
the spec (§4.2, §6): an IPv4 address is a `Nat` below `2^32`, a CIDR is
`"a.b.c.d/p"`, the derived subnet is the network address of the CIDR at
its own prefix length, and allocation draws addresses in ascending order
from the usable host range (network and broadcast addresses excluded),
failing with `AddressPoolExhausted` when fewer than the requested number
of usable addresses exist and with `InvalidCIDR` on a malformed CIDR. -/

/-- Parse one dotted-quad octet (a decimal number below 256). -/
def parseOctet (cs : List Char) : Option Nat :=
  match parseDigits cs with
  | some n => if n < 256 then some n else none
  | none => none

/-- Parse a dotted-quad IPv4 address into its 32-bit numeric value. -/
def parseIPv4 (cs : List Char) : Option Nat :=
  match splitChar '.' cs with
  | [a, b, c, d] =>
    match parseOctet a, parseOctet b, parseOctet c, parseOctet d with
    | some x, some y, some z, some w => some (((x * 256 + y) * 256 + z) * 256 + w)
    | _, _, _, _ => none
  | _ => none

/-- Render a 32-bit numeric IPv4 address as a dotted quad. -/
def ipToString (n : Nat) : String :=
  natToStr (n / 16777216 % 256) ++ "." ++ natToStr (n / 65536 % 256) ++ "." ++
    natToStr (n / 256 % 256) ++ "." ++ natToStr (n % 256)

/-- Modelled from the spec: parse `"a.b.c.d/p"` into the numeric address
and the prefix length `p ≤ 32`. -/
def parseCIDR (s : String) : Option (Nat × Nat) :=
  match splitChar '/' s.data with
  | [ipPart, pfxPart] =>
    match parseIPv4 ipPart, parseDigits pfxPart with
    | some ip, some pfx => if pfx ≤ 32 then some (ip, pfx) else none
    | _, _ => none
  | _ => none

/-- The network (base) address of `ip` under a prefix of length `pfx`. -/
def subnetBase (ip pfx : Nat) : Nat := ip - ip % 2 ^ (32 - pfx)

/-- The number of usable host addresses of a subnet with prefix length
`pfx` (network and broadcast addresses excluded). -/
def hostCount (pfx : Nat) : Nat := 2 ^ (32 - pfx) - 2

/-- The first `k` usable host addresses of the subnet, in ascending
order, as numeric addresses. -/
def availableNats (ip pfx k : Nat) : List Nat := List.range' (subnetBase ip pfx + 1) k

/-- Modelled from the spec: `nethelper.CIDRSubnet` — derive the usable
subnet deterministically from a network CIDR (its network address at the
same prefix length). -/
def CIDRSubnet (s : String) : Except Err String :=
  match parseCIDR s with
  | none => .error (.invalidCIDR s)
  | some (ip, pfx) => .ok (ipToString (subnetBase ip pfx) ++ "/" ++ natToStr pfx)

/-- Modelled from the spec: `nethelper.GetAvailableIPs` — the first `k`
usable host addresses of the CIDR's subnet in ascending order, or
`AddressPoolExhausted` when the subnet has fewer than `k` usable
addresses (a non-positive request is likewise unsatisfiable). -/
def GetAvailableIPs (s : String) (k : Int) : Except Err (List String) :=
  match parseCIDR s with
  | none => .error (.invalidCIDR s)
  | some (ip, pfx) =>
    if k ≤ 0 then .error .addressPoolExhausted
    else if hostCount pfx < k.toNat then .error .addressPoolExhausted
    else .ok ((availableNats ip pfx k.toNat).map ipToString)

/-! ### Claim (`v1.PersistentVolumeClaim`) and datacenter configuration -/

/-- The slice of `v1.PersistentVolumeClaim` the provisioning pipeline
reads and writes: the name, the label map (nil-able) and the resource
request map (nil-able; a `resource.Quantity` is embedded as its `Int`
value, which carries the only fact the code consults, its sign). -/
structure PVC where
  name : String
  labels : Option (List (String × String))
  requests : Option (List (String × Int))
deriving DecidableEq, Repr

/-- Read a label from a claim; a nil label map reads as all-empty, as a
nil Go map does. -/
def pvcGet (p : PVC) (k : String) : String :=
  match p.labels with
  | none => ""
  | some l => mapGet l k

/-- Per-datacenter section of the orchestrator's INI configuration
(`NomadConfig.Datacenter` in `lib/orchprovider/nomad/util.go`). -/
structure DCConf where
  address : String
  cnType : String
  cnNetworkCIDR : String
  cnInterface : String
  csPersistenceLocation : String
  csReplicaCount : String
deriving DecidableEq, Repr

/-- `NomadConfig`: the nil-able map from datacenter name to its section. -/
structure NomadConfig where
  datacenter : Option (List (String × DCConf))
deriving DecidableEq, Repr

/-- Modelled from the spec: the built-in hard defaults
(`v1nomad.DefaultNomadCNType` etc., defined in `lib/api/v1/nomad`, which
is not among the sources at hand); their exact values follow the sample
configuration quoted in `lib/orchprovider/nomad/util.go`. -/
def DefaultNomadCNType : String := "host"

def DefaultNomadCNNetworkCIDR : String := "172.28.128.1/24"

def DefaultNomadCNInterface : String := "enp0s8"

def DefaultNomadCSPersistenceLocation : String := "/tmp/"

def DefaultNomadCSReplicaCount : String := "2"

/-- Look a datacenter section up in the configuration map. -/
def dcLookup (c : NomadConfig) (dcName : String) : Option DCConf :=
  match c.datacenter with
  | none => none
  | some m => (m.find? (fun p => p.1 == dcName)).map (fun p => p.2)

/-- `nomadUtil.validateConf`. -/
def validateConf (c : NomadConfig) (dcName : String) : Except Err DCConf :=
  if dcName == "" then .error .emptyDCName
  else
    match c.datacenter with
    | none => .error .nilConfDatacenters
    | some m =>
      match m.find? (fun p => p.1 == dcName) with
      | none => .error (.dcNotFound dcName)
      | some p => .ok p.2

/-- `nomadUtil.getCNType` (the section is the one `validateConf`
established to be present). -/
def getCNType (d : DCConf) : String :=
  if d.cnType == "" then DefaultNomadCNType else d.cnType

/-- `nomadUtil.getCNNetworkCIDR`. -/
def getCNNetworkCIDR (d : DCConf) : String :=
  if d.cnNetworkCIDR == "" then DefaultNomadCNNetworkCIDR else d.cnNetworkCIDR

/-- `nomadUtil.getCNInterface`. -/
def getCNInterface (d : DCConf) : String :=
  if d.cnInterface == "" then DefaultNomadCNInterface else d.cnInterface

/-- `nomadUtil.getCSPersistenceLocation`. -/
def getCSPersistenceLocation (d : DCConf) : String :=
  if d.csPersistenceLocation == "" then DefaultNomadCSPersistenceLocation
  else d.csPersistenceLocation

/-- `nomadUtil.getCSReplicaCount`. -/
def getCSReplicaCount (d : DCConf) : Except Err String :=
  if d.csReplicaCount == "" then .ok DefaultNomadCSReplicaCount
  else
    match atoi d.csReplicaCount with
    | none => .error (.invalidConfReplicaCount d.csReplicaCount)
    | some repCount =>
      if repCount = 0 then .error .zeroConfReplicaCount
      else .ok d.csReplicaCount

/-- `nomadUtil.CN`: the datacenter-scoped container-networking defaults. -/
def CN (c : NomadConfig) (dcName : String) : Except Err (List (String × String)) := do
  let d ← validateConf c dcName
  .ok [(cnTypeLbl, getCNType d), (cnNetworkCIDRLbl, getCNNetworkCIDR d),
       (cnInterfaceLbl, getCNInterface d)]

/-- `nomadUtil.CS`: the datacenter-scoped container-storage defaults. -/
def CS (c : NomadConfig) (dcName : String) : Except Err (List (String × String)) := do
  let d ← validateConf c dcName
  let repCount ← getCSReplicaCount d
  .ok [(persistLocLbl, getCSPersistenceLocation d), (replicaCountLbl, repCount)]

/-- The collaborators `jivaUtil` reaches through its aspect: the
orchestrator's region, the aspect's default datacenter, and the Nomad
configuration behind `NetworkProps`/`StorageProps`.  Modelled from the
spec's control flow (`VolumeClaim → Property Resolver → ...`): the
registry/aspect plumbing is not among the sources at hand. -/
structure Env where
  region : String
  defaultDC : String
  conf : NomadConfig
deriving DecidableEq, Repr

/-! ### jiva resolution and allocation (`lib/volume/jiva/util.go`) -/

/-- `initLabels`: initialize the label map when nil (the function's only
effect; its `error` result is always nil). -/
def initLabels (p : PVC) : PVC :=
  match p.labels with
  | none => { p with labels := some [] }
  | some _ => p

/-- `verifySpecs`: the only check with effect is `Requests == nil`
(`&pvc.Spec` and `&pvc.Spec.Resources` are addresses of fields and never
nil). -/
def verifySpecs (p : PVC) : Except Err Unit :=
  match p.requests with
  | none => .error .missingStorageSpecs
  | some _ => .ok ()

/-- `setJivaLblProps`: default the frontend image when unset. -/
def setJivaLblProps (p : PVC) : Except Err PVC :=
  match p.labels with
  | none => .error .missingLabels
  | some l =>
    if mapGet l ctrlImageLbl == "" then
      .ok { p with labels := some (mapSet l ctrlImageLbl "openebs/jiva:latest") }
    else .ok p

/-- `getStorageSize`: the requested storage quantity, which must be
positive (`sizePtr` is the address of a local and never nil). -/
def getStorageSize (p : PVC) : Except Err Int :=
  match p.requests with
  | none => .error .missingStorageSpecs
  | some m =>
    let size := reqGet m "storage"
    if size ≤ 0 then .error .invalidStorageSize else .ok size

/-- `setJivaSpecProps`: default the frontend and backend volume sizes to
the requested storage size when unset or non-positive (the
`feQuantityPtr == nil` disjuncts are addresses of locals and never
nil; `Sign() <= 0` is the live test).  Called after `verifySpecs`, so the
request map is present. -/
def setJivaSpecProps (p : PVC) : Except Err PVC :=
  match p.requests with
  | none => .error .missingStorageSpecs
  | some m => do
    let m1 ←
      if reqGet m feVolSizeLbl ≤ 0 then do
        let size ← getStorageSize p
        pure (reqSet m feVolSizeLbl size)
      else pure m
    let m2 ←
      if reqGet m1 beVolSizeLbl ≤ 0 then do
        let size ← getStorageSize { p with requests := some m1 }
        pure (reqSet m1 beVolSizeLbl size)
      else pure m1
    .ok { p with requests := some m2 }

/-- `jivaUtil.setRegion`: keep an already-set region, otherwise take the
orchestrator's region, which must be non-empty. -/
def setRegion (env : Env) (p : PVC) : Except Err PVC :=
  match p.labels with
  | none => .error .missingLabels
  | some l =>
    if mapGet l regionLbl != "" then .ok p
    else if env.region == "" then .error .regionNotDetermined
    else .ok { p with labels := some (mapSet l regionLbl env.region) }

/-- `jivaUtil.setDC`: keep an already-set datacenter, otherwise take the
aspect's default datacenter, which must be non-empty; returns the
datacenter used. -/
def setDC (env : Env) (p : PVC) : Except Err (String × PVC) :=
  match p.labels with
  | none => .error .missingLabels
  | some l =>
    if mapGet l dcLbl != "" then .ok (mapGet l dcLbl, p)
    else if env.defaultDC == "" then .error .dcNotDetermined
    else .ok (env.defaultDC, { p with labels := some (mapSet l dcLbl env.defaultDC) })

/-- `jivaUtil.setCS`: merge the datacenter-scoped storage defaults into
the claim's labels, never overwriting a set value. -/
def setCS (env : Env) (dc : String) (p : PVC) : Except Err PVC :=
  match p.labels with
  | none => .error .missingLabels
  | some l =>
    if dc == "" then .error .dcNotProvided
    else do
      let cs ← CS env.conf dc
      .ok { p with labels := some (mergeDefaults l cs) }

/-- `getBackendCount`: parse the claim's replica-count label. -/
def getBackendCount (p : PVC) : Except Err Int :=
  match atoi (pvcGet p replicaCountLbl) with
  | none => .error (.invalidReplicaCount (pvcGet p replicaCountLbl))
  | some n => .ok n

/-- The comma-separated encoding used by `setBackendIPsAsString`: append
each address followed by a comma, then `strings.TrimSuffix` the trailing
comma. -/
def joinTrim (ips : List String) : String :=
  let strBEIPs := ips.foldl (fun acc ip => acc ++ ip ++ ",") ""
  match strBEIPs.data.reverse with
  | ',' :: rest => String.mk rest.reverse
  | _ => strBEIPs

/-- `setBackendIPsAsString`: store the backend addresses as one
comma-separated label value.  Called only with an initialized label
map. -/
def setBackendIPsAsString (ips : List String) (p : PVC) : Except Err PVC :=
  match p.labels with
  | none => .error .missingLabels
  | some l =>
    .ok { p with labels := some (mapSet l replicaIPsLbl (joinTrim ips)) }

/-- `setBackendIPs`: allocate one address per replica and store them. -/
def setBackendIPs (networkCIDR : String) (p : PVC) : Except Err PVC := do
  let iBECount ← getBackendCount p
  let ips ← GetAvailableIPs networkCIDR iBECount
  setBackendIPsAsString ips p

/-- `jivaUtil.setCN`: merge the datacenter-scoped networking defaults
(never overwriting a set value), derive and store the subnet from the
network CIDR, then fill in whichever of the frontend IP and the
backend-IP list is still unset (both / only the frontend / only the
backends), drawing fresh addresses from the network CIDR.  The allocated
lists are non-empty whenever the allocator succeeds on a positive count,
so the source's `ips[0]` is embedded as `headD`. -/
def setCN (env : Env) (dc : String) (p : PVC) : Except Err PVC :=
  match p.labels with
  | none => .error .missingLabels
  | some l =>
    if dc == "" then .error .dcNotProvided
    else do
      let cn ← CN env.conf dc
      let l1 := mergeDefaults l cn
      let networkCIDR := mapGet l1 cnNetworkCIDRLbl
      if networkCIDR == "" then .error .networkCIDRNotDetermined
      else do
        let subnet ← CIDRSubnet networkCIDR
        let l2 := mapSet l1 cnSubnetLbl subnet
        let p2 : PVC := { p with labels := some l2 }
        if mapGet l2 ctrlIPLbl == "" && mapGet l2 replicaIPsLbl == "" then do
          let iBECount ← getBackendCount p2
          let ips ← GetAvailableIPs networkCIDR (1 + iBECount)
          let p3 : PVC := { p2 with labels := some (mapSet l2 ctrlIPLbl (ips.headD "")) }
          setBackendIPsAsString (ips.drop 1) p3
        else if mapGet l2 ctrlIPLbl == "" then do
          let ips ← GetAvailableIPs networkCIDR 1
          .ok { p2 with labels := some (mapSet l2 ctrlIPLbl (ips.headD "")) }
        else if mapGet l2 replicaIPsLbl == "" then
          setBackendIPs networkCIDR p2
        else .ok p2

/-- The resolution-and-allocation phase of `jivaUtil.ProvisionStorage`
(everything between the orchestrator lookup and
`StoragePlacementReq`). -/
def provisionResolve (env : Env) (pvc : PVC) : Except Err PVC := do
  let p1 := initLabels pvc
  let _ ← verifySpecs p1
  let p2 ← setJivaLblProps p1
  let p3 ← setJivaSpecProps p2
  let p4 ← setRegion env p3
  let (dc, p5) ← setDC env p4
  let p6 ← setCS env dc p5
  setCN env dc p6

/-! ### Nomad topology (`api.Job`) and its construction
(`lib/orchprovider/nomad/helper_funcs.go`) -/

/-- `api.Constraint` as built by `api.NewConstraint(l, operand, r)`. -/
structure Constraint where
  lTarget : String
  operand : String
  rTarget : String
deriving DecidableEq, Repr

/-- `api.RestartPolicy` (durations in seconds). -/
structure RestartPolicy where
  attempts : Int
  intervalSeconds : Int
  delaySeconds : Int
  mode : String
deriving DecidableEq, Repr

/-- `api.NetworkResource` (the one field the builder sets). -/
structure NetworkResource where
  mbits : Int
deriving DecidableEq, Repr

/-- `api.Resources` (the fields the builder sets). -/
structure Resources where
  cpu : Int
  memoryMB : Int
  networks : List NetworkResource
deriving DecidableEq, Repr

/-- `api.TaskArtifact`. -/
structure TaskArtifact where
  getterSource : String
  relativeDest : String
deriving DecidableEq, Repr

/-- `api.LogConfig`. -/
structure LogConfig where
  maxFiles : Int
  maxFileSizeMB : Int
deriving DecidableEq, Repr

/-- `api.Task` (the fields the builder sets; `Config` holds only the
`command` entry). -/
structure Task where
  name : String
  driver : String
  resources : Resources
  env : List (String × String)
  artifacts : List TaskArtifact
  command : String
  logConfig : LogConfig
deriving DecidableEq, Repr

/-- `api.TaskGroup`.  A group the builder gives no constraints has the
empty list (Go's nil slice). -/
structure TaskGroup where
  name : String
  count : Int
  constraints : List Constraint
  restartPolicy : RestartPolicy
  tasks : List Task
deriving DecidableEq, Repr

/-- `api.Job`.  `status` and `statusDescription` are nil-able pointers
never set by the builder (they are populated by the orchestrator);
`name`/`id`/`jobType` are pointers the builder always sets. -/
structure Job where
  region : Option String
  name : Option String
  id : Option String
  datacenters : List String
  jobType : Option String
  priority : Int
  constraints : List Constraint
  meta : List (String × String)
  taskGroups : List TaskGroup
  status : Option String
  statusDescription : Option String
deriving DecidableEq, Repr

/-- The restart policy both groups share: 3 attempts per 5-minute
interval, 25-second delay, delay mode. -/
def jivaRestartPolicy : RestartPolicy :=
  { attempts := 3, intervalSeconds := 300, delaySeconds := 25, mode := "delay" }

/-- `setBEIPs`: refuse a zero replica count and a replica-IP list whose
length differs from the replica count, then record the count and one
entry per backend ordinal in both the backend environment and the job
metadata.  Indexing `jivaBeIPArr[i]` is safe after the length check, so
it is embedded as `getD`. -/
def setBEIPs (beEnv jobMeta : List (String × String)) (jivaBeIPArr : List String)
    (iJivaBECount : Int) :
    Except Err (List (String × String) × List (String × String)) :=
  if iJivaBECount = 0 then .error (.invalidReplicaCount "0")
  else if (jivaBeIPArr.length : Int) ≠ iJivaBECount then
    .error (.replicaIPCountMismatch jivaBeIPArr.length iJivaBECount)
  else
    let jm := mapSet jobMeta replicaCountLbl (intToStr iJivaBECount)
    .ok ((List.range iJivaBECount.toNat).foldl
      (fun acc i =>
        let k := beIPOrdinalLbl ++ natToStr i
        let v := jivaBeIPArr.getD i ""
        (mapSet acc.1 k v, mapSet acc.2 k v))
      (beEnv, jm))

/-- The label keys `PvcToJob` requires to be non-empty, in the order the
source checks them (after the nil-claim, empty-name and nil-labels
guards). -/
def requiredKeys : List String :=
  [regionLbl, dcLbl, ctrlImageLbl, ctrlIPLbl, replicaIPsLbl,
   cnTypeLbl, cnSubnetLbl, cnInterfaceLbl, persistLocLbl, storageSizeLbl]

/-- The first required key that is empty on the label map, if any. -/
def requiredFirstEmpty (l : List (String × String)) : Option String :=
  requiredKeys.find? (fun k => mapGet l k == "")

/-- `PvcToJob`: validate the claim's required properties in order, parse
the replica count, split the replica-IP list, populate the backend
environment and the job metadata, and assemble the two-group topology. -/
def PvcToJob (opvc : Option PVC) : Except Err Job :=
  match opvc with
  | none => .error .nilClaim
  | some pvc =>
    if pvc.name == "" then .error .missingVSMName
    else
      match pvc.labels with
      | none => .error .missingLabels
      | some l =>
        if mapGet l regionLbl == "" then .error (.missingProperty regionLbl)
        else if mapGet l dcLbl == "" then .error (.missingProperty dcLbl)
        else if mapGet l ctrlImageLbl == "" then .error (.missingProperty ctrlImageLbl)
        else if mapGet l ctrlIPLbl == "" then .error (.missingProperty ctrlIPLbl)
        else if mapGet l replicaIPsLbl == "" then .error (.missingProperty replicaIPsLbl)
        else if mapGet l cnTypeLbl == "" then .error (.missingProperty cnTypeLbl)
        else if mapGet l cnSubnetLbl == "" then .error (.missingProperty cnSubnetLbl)
        else if mapGet l cnInterfaceLbl == "" then .error (.missingProperty cnInterfaceLbl)
        else if mapGet l persistLocLbl == "" then .error (.missingProperty persistLocLbl)
        else if mapGet l storageSizeLbl == "" then .error (.missingProperty storageSizeLbl)
        else
          let jivaFEVolSize := mapGet l storageSizeLbl
          let jivaBEVolSize := mapGet l storageSizeLbl
          let jobName := pvc.name
          let region := mapGet l regionLbl
          let dc := mapGet l dcLbl
          let jivaGroupName := "jiva-pod"
          let jivaVolName := pvc.name
          let feTaskGroup := "fe" ++ "-" ++ jivaGroupName
          let beTaskGroup := "be" ++ "-" ++ jivaGroupName
          let feTaskName := "fe"
          let beTaskName := "be"
          let jivaFeVersion := mapGet l ctrlImageLbl
          let jivaNetworkType := mapGet l cnTypeLbl
          let jivaFeIP := mapGet l ctrlIPLbl
          let jivaBEPersistentStor := mapGet l persistLocLbl
          let jivaBECount := mapGet l replicaCountLbl
          match atoi jivaBECount with
          | none => .error (.invalidReplicaCount jivaBECount)
          | some iJivaBECount =>
            let jivaBeIPs := mapGet l replicaIPsLbl
            let jivaBeIPArr := splitComma jivaBeIPs
            let jivaFeSubnet := mapGet l cnSubnetLbl
            let jivaFeInterface := mapGet l cnInterfaceLbl
            let jobMeta : List (String × String) :=
              [(beVolSizeLbl, jivaBEVolSize),
               (ctrlIPLbl, jivaFeIP),
               (targetPortalLbl, jivaFeIP ++ ":" ++ jivaISCSIPortDef),
               (iqnLbl, jivaIqnFormatPfx ++ ":" ++ jivaVolName)]
            let feEnv : List (String × String) :=
              [("JIVA_CTL_NAME", pvc.name ++ "-" ++ feTaskName ++ "${NOMAD_ALLOC_INDEX}"),
               ("JIVA_CTL_VERSION", jivaFeVersion),
               ("JIVA_CTL_VOLNAME", jivaVolName),
               ("JIVA_CTL_VOLSIZE", jivaFEVolSize),
               ("JIVA_CTL_IP", jivaFeIP),
               ("JIVA_CTL_SUBNET", jivaFeSubnet),
               ("JIVA_CTL_IFACE", jivaFeInterface)]
            let beEnv : List (String × String) :=
              [("NOMAD_ALLOC_INDEX", "${NOMAD_ALLOC_INDEX}"),
               ("JIVA_REP_NAME", pvc.name ++ "-" ++ beTaskName ++ "${NOMAD_ALLOC_INDEX}"),
               ("JIVA_CTL_IP", jivaFeIP),
               ("JIVA_REP_VOLNAME", jivaVolName),
               ("JIVA_REP_VOLSIZE", jivaBEVolSize),
               ("JIVA_REP_VOLSTORE",
                 jivaBEPersistentStor ++ pvc.name ++ "/" ++ beTaskName ++ "${NOMAD_ALLOC_INDEX}"),
               ("JIVA_REP_VERSION", jivaFeVersion),
               ("JIVA_REP_NETWORK", jivaNetworkType),
               ("JIVA_REP_IFACE", jivaFeInterface),
               ("JIVA_REP_SUBNET", jivaFeSubnet)]
            match setBEIPs beEnv jobMeta jivaBeIPArr iJivaBECount with
            | .error e => .error e
            | .ok (beEnv2, jobMeta2) =>
              .ok
                { region := some region
                  name := some jobName
                  id := some jobName
                  datacenters := [dc]
                  jobType := some "service"
                  priority := 50
                  constraints := [⟨"${attr.kernel.name}", "=", "linux"⟩]
                  meta := jobMeta2
                  taskGroups :=
                    [{ name := feTaskGroup
                       count := 1
                       constraints := []
                       restartPolicy := jivaRestartPolicy
                       tasks :=
                         [{ name := feTaskName
                            driver := "raw_exec"
                            resources :=
                              { cpu := 50, memoryMB := 50, networks := [{ mbits := 50 }] }
                            env := feEnv
                            artifacts :=
                              [{ getterSource := "https://raw.githubusercontent.com/openebs/jiva/master/scripts/launch-jiva-ctl-with-ip",
                                 relativeDest := "local/" }]
                            command := "launch-jiva-ctl-with-ip"
                            logConfig := { maxFiles := 3, maxFileSizeMB := 1 } }] },
                     { name := beTaskGroup
                       count := iJivaBECount
                       constraints := [⟨"", "distinct_hosts", "true"⟩]
                       restartPolicy := jivaRestartPolicy
                       tasks :=
                         [{ name := beTaskName
                            driver := "raw_exec"
                            resources :=
                              { cpu := 50, memoryMB := 50, networks := [{ mbits := 50 }] }
                            env := beEnv2
                            artifacts :=
                              [{ getterSource := "https://raw.githubusercontent.com/openebs/jiva/master/scripts/launch-jiva-rep-with-ip",
                                 relativeDest := "local/" }]
                            command := "launch-jiva-rep-with-ip"
                            logConfig := { maxFiles := 3, maxFileSizeMB := 1 } }] }]
                  status := none
                  statusDescription := none }

/-! ### Status reconciler (`lib/orchprovider/nomad/helper_funcs.go`) -/

/-- `api.Evaluation` (the fields `JobEvalToPv` reads). -/
structure Evaluation where
  priority : Int
  evalType : String
  triggeredBy : String
  jobID : String
  status : String
  statusDescription : String
  blockedEval : String
deriving DecidableEq, Repr

/-- `v1.PersistentVolumeStatus`. -/
structure PVStatus where
  message : String
  reason : String
deriving DecidableEq, Repr

/-- The slice of `v1.PersistentVolume` the reconciler writes: name, the
nil-able annotation map, and the status. -/
structure PV where
  name : String
  annotations : Option (List (String × String))
  status : PVStatus
deriving DecidableEq, Repr

/-- `JobEvalToPv`: map an evaluation record to a volume status — message
from the status description, reason from the status, and a flat
annotation map with every evaluation field stringified. -/
def JobEvalToPv (jobName : String) (oeval : Option Evaluation) : Except Err PV :=
  match oeval with
  | none => .error .nilEvaluation
  | some eval =>
    .ok
      { name := jobName
        annotations := some
          [("evalpriority", intToStr eval.priority),
           ("evaltype", eval.evalType),
           ("evaltrigger", eval.triggeredBy),
           ("evaljob", eval.jobID),
           ("evalstatus", eval.status),
           ("evalstatusdesc", eval.statusDescription),
           ("evalblockedeval", eval.blockedEval)]
        status := { message := eval.statusDescription, reason := eval.status } }

/-- `PvToJob`: carry only the volume's name over as the job's name and
id. -/
def PvToJob (opv : Option PV) : Except Err Job :=
  match opv with
  | none => .error .nilVolume
  | some pv =>
    .ok
      { region := none, name := some pv.name, id := some pv.name, datacenters := []
        jobType := none, priority := 0, constraints := [], meta := []
        taskGroups := [], status := none, statusDescription := none }

/-- `JobToPv`: error only on a nil job; otherwise dereference the job's
name, status-description and status pointers (in source order — a `none`
result embeds the Go nil-pointer panic), derive message/reason from the
job's status fields, and surface the job's metadata as the annotations
exactly when the job status is the running state. -/
def JobToPv (ojob : Option Job) : Option (Except Err PV) :=
  match ojob with
  | none => some (.error .nilJob)
  | some job =>
    match job.name with
    | none => none
    | some nm =>
      match job.statusDescription with
      | none => none
      | some sd =>
        match job.status with
        | none => none
        | some st =>
          some (.ok
            { name := nm
              annotations := if st == JobStatusRunning then some job.meta else none
              status := { message := sd, reason := st } })

/-- Modelled from the spec's control flow
(`resolve → allocate → build`): `ProvisionStorage` hands the resolved
claim to the orchestrator's `StoragePlacementReq`, whose topology
construction is `PvcToJob`; the wire-level submission around it is an
external collaborator. -/
def provisionPipeline (env : Env) (pvc : PVC) : Except Err Job := do
  let p ← provisionResolve env pvc
  PvcToJob (some p)

/-- All bindings of key `k` in the map carry the value `v`, and at least
one is present: exactly the state `mapSet _ k v` leaves behind. -/
def Unif (l : List (String × String)) (k v : String) : Prop :=
  (l.find? (fun p => p.1 == k)).isSome = true ∧ ∀ p ∈ l, p.1 = k → p.2 = v

/-- The key `k` is bound in the map. -/
def hasKey (l : List (String × String)) (k : String) : Bool :=
  (l.find? (fun p => p.1 == k)).isSome

/-- Reading one property of the claim a resolution run produces (used to
observe resolution results on concrete inputs). -/
def resolveGet (env : Env) (pvc : PVC) (k : String) : Option String :=
  match provisionResolve env pvc with
  | .ok p => some (pvcGet p k)
  | .error _ => none

/-! ### Concrete fixtures for the closed instance theorems -/

/-- A one-datacenter environment with a /28 network. -/
def wEnv : Env :=
  { region := "global", defaultDC := "dc1",
    conf := ⟨some [("dc1",
      { address := "http://10.0.0.1:4646", cnType := "host",
        cnNetworkCIDR := "10.0.0.0/28", cnInterface := "eth0",
        csPersistenceLocation := "/tmp/", csReplicaCount := "2" })]⟩ }

/-- A minimal unresolved claim. -/
def wClaim : PVC :=
  { name := "vol1", labels := some [(storageSizeLbl, "5G")],
    requests := some [("storage", 5)] }

/-- A claim that already carries a value under the subnet key. -/
def wPreset : PVC :=
  { name := "vol1",
    labels := some [(storageSizeLbl, "5G"), (cnSubnetLbl, "presetsubnet"),
      (ctrlIPLbl, "10.0.0.9"), (replicaIPsLbl, "10.0.0.7,10.0.0.8"),
      (replicaCountLbl, "2")],
    requests := some [("storage", 5)] }

/-- A claim whose explicit replica-IP list (one address) disagrees with
its replica count (two). -/
def wMismatch : PVC :=
  { name := "vol1",
    labels := some [(storageSizeLbl, "5G"), (replicaIPsLbl, "10.0.0.5"),
      (replicaCountLbl, "2")],
    requests := some [("storage", 5)] }

/-- The networking defaults of `wEnv`'s datacenter. -/
def wCN : List (String × String) :=
  [(cnTypeLbl, "host"), (cnNetworkCIDRLbl, "10.0.0.0/28"), (cnInterfaceLbl, "eth0")]

/-- A claim with a replica count but neither IP role set. -/
def wAlloc : PVC :=
  ⟨"vol1", some [(replicaCountLbl, "2")], some [("storage", 5)]⟩

/-- A claim with a frontend IP but no backend IP list. -/
def wFEonly : PVC :=
  ⟨"vol1", some [(replicaCountLbl, "2"), (ctrlIPLbl, "10.0.0.9")], some [("storage", 5)]⟩

/-- A claim with a backend IP list but no frontend IP. -/
def wBEonly : PVC :=
  ⟨"vol1", some [(replicaCountLbl, "2"), (replicaIPsLbl, "10.0.0.7,10.0.0.8")],
    some [("storage", 5)]⟩

/-- The claim `provisionResolve wEnv wClaim` produces. -/
def wResolved : PVC :=
  ⟨"vol1",
   some [("storageSize", "5G"), ("controllerImage", "openebs/jiva:latest"),
     ("region", "global"), ("datacenter", "dc1"), ("persistenceLocation", "/tmp/"),
     ("replicaCount", "2"), ("cnType", "host"), ("cnNetworkCIDR", "10.0.0.0/28"),
     ("cnInterface", "eth0"), ("cnSubnet", "10.0.0.0/28"), ("controllerIP", "10.0.0.1"),
     ("replicaIPs", "10.0.0.2,10.0.0.3")],
   some [("storage", 5), ("feVolSize", 5), ("beVolSize", 5)]⟩

/-! ## Lemmas about the map embedding -/

theorem mapGet_nil (k : String) : mapGet [] k = "" := rfl

theorem mapGet_cons (p : String × String) (r : List (String × String)) (k : String) :
    mapGet (p :: r) k = if p.1 = k then p.2 else mapGet r k := by
  by_cases h : p.1 = k
  · have hb : (p.1 == k) = true := by simp [h]
    simp [mapGet, List.find?, hb, h]
  · have hb : (p.1 == k) = false := by simp [h]
    simp [mapGet, List.find?, hb, h]

theorem mapSet_cons (p : String × String) (r : List (String × String)) (k v : String) :
    mapSet (p :: r) k v =
      if p.1 = k then (k, v) :: r.map (fun q => if q.1 == k then (k, v) else q)
      else p :: mapSet r k v := by
  by_cases h : p.1 = k
  · have hb : (p.1 == k) = true := by simp [h]
    simp [mapSet, List.find?, hb, h]
  · have hb : (p.1 == k) = false := by simp [h]
    cases hf : r.find? (fun q => q.1 == k) <;>
      simp [mapSet, List.find?, hb, h, hf]

theorem mapGet_map_replace_ne (r : List (String × String)) (k v k' : String)
    (h : k' ≠ k) :
    mapGet (r.map (fun q => if q.1 == k then (k, v) else q)) k' = mapGet r k' := by
  induction r with
  | nil => rfl
  | cons q s ih =>
    rw [List.map_cons, mapGet_cons, mapGet_cons]
    by_cases hq : q.1 = k
    · simp only [hq, beq_self_eq_true, if_true]
      rw [if_neg (by exact Ne.symm h), if_neg (fun hc : k = k' => h hc.symm)]
      exact ih
    · have hb : (q.1 == k) = false := by simp [hq]
      simp only [hb, Bool.false_eq_true, if_false]
      by_cases hq' : q.1 = k'
      · rw [if_pos hq', if_pos hq']
      · rw [if_neg hq', if_neg hq']
        exact ih

theorem mapGet_mapSet_self (l : List (String × String)) (k v : String) :
    mapGet (mapSet l k v) k = v := by
  induction l with
  | nil => simp [mapSet, mapGet, List.find?]
  | cons p r ih =>
    rw [mapSet_cons]
    by_cases h : p.1 = k
    · simp [h, mapGet_cons]
    · simp [h, mapGet_cons, ih]

theorem mapGet_mapSet_ne (l : List (String × String)) (k v k' : String) (h : k' ≠ k) :
    mapGet (mapSet l k v) k' = mapGet l k' := by
  induction l with
  | nil =>
    have hb : (k == k') = false := by simp [Ne.symm h]
    simp [mapSet, mapGet, List.find?, hb]
  | cons p r ih =>
    rw [mapSet_cons]
    by_cases hp : p.1 = k
    · rw [if_pos hp, mapGet_cons, mapGet_cons]
      rw [if_neg (by exact Ne.symm h), if_neg (fun hc : p.1 = k' => h (hc ▸ hp))]
      exact mapGet_map_replace_ne r k v k' h
    · rw [if_neg hp, mapGet_cons, mapGet_cons, ih]

theorem hasKey_iff (l : List (String × String)) (k : String) :
    hasKey l k = true ↔ ∃ p ∈ l, p.1 = k := by
  simp [hasKey, List.find?_isSome]

theorem mem_mapSet (l : List (String × String)) (k v : String) :
    ∀ p ∈ mapSet l k v, p = (k, v) ∨ (p ∈ l ∧ p.1 ≠ k) := by
  intro p hp
  by_cases h : (l.find? (fun q => q.1 == k)).isSome
  · simp only [mapSet, if_pos h, List.mem_map] at hp
    obtain ⟨q, hq, hfq⟩ := hp
    by_cases hq1 : q.1 = k
    · left; simp [hq1] at hfq; exact hfq.symm
    · right; simp [hq1] at hfq; exact ⟨hfq ▸ hq, hfq ▸ hq1⟩
  · simp only [mapSet, if_neg h, List.mem_append, List.mem_singleton] at hp
    rcases hp with hl | he
    · right
      refine ⟨hl, fun hk => ?_⟩
      have hn : l.find? (fun q => q.1 == k) = none :=
        Option.not_isSome_iff_eq_none.mp (by simpa using h)
      exact absurd (by simp [hk]) (List.find?_eq_none.mp hn p hl)
    · left; exact he

theorem mem_mapSet_of_ne (l : List (String × String)) (k v : String)
    (p : String × String) (hp : p ∈ l) (hne : p.1 ≠ k) : p ∈ mapSet l k v := by
  by_cases h : (l.find? (fun q => q.1 == k)).isSome
  · simp only [mapSet, if_pos h, List.mem_map]
    exact ⟨p, hp, by simp [hne]⟩
  · simp only [mapSet, if_neg h, List.mem_append]
    exact Or.inl hp

theorem kv_mem_mapSet (l : List (String × String)) (k v : String) :
    (k, v) ∈ mapSet l k v := by
  by_cases h : (l.find? (fun q => q.1 == k)).isSome
  · simp only [mapSet, if_pos h, List.mem_map]
    rw [Option.isSome_iff_exists] at h
    obtain ⟨q, hq⟩ := h
    have hq1 : q.1 = k := by simpa using List.find?_some hq
    exact ⟨q, List.mem_of_find?_eq_some hq, by simp [hq1]⟩
  · simp [mapSet, if_neg h]

theorem hasKey_mapSet_self (l : List (String × String)) (k v : String) :
    hasKey (mapSet l k v) k = true :=
  (hasKey_iff _ _).mpr ⟨(k, v), kv_mem_mapSet l k v, rfl⟩

theorem hasKey_mapSet_of_hasKey (l : List (String × String)) (k v k' : String)
    (h : hasKey l k' = true) : hasKey (mapSet l k v) k' = true := by
  by_cases hkk : k' = k
  · exact hkk ▸ hasKey_mapSet_self l k v
  · obtain ⟨p, hp, hp1⟩ := (hasKey_iff _ _).mp h
    exact (hasKey_iff _ _).mpr ⟨p, mem_mapSet_of_ne l k v p hp (hp1 ▸ hkk), hp1⟩

theorem unif_mapSet_self (l : List (String × String)) (k v : String) :
    Unif (mapSet l k v) k v := by
  refine ⟨hasKey_mapSet_self l k v, fun p hp hk => ?_⟩
  rcases mem_mapSet l k v p hp with h | ⟨_, hne⟩
  · rw [h]
  · exact absurd hk hne

theorem unif_mapSet_ne (l : List (String × String)) (k v k' v' : String)
    (hu : Unif l k v) (h : k' ≠ k) : Unif (mapSet l k' v') k v := by
  obtain ⟨h1, h2⟩ := hu
  refine ⟨hasKey_mapSet_of_hasKey l k' v' k h1, fun p hp hk => ?_⟩
  rcases mem_mapSet l k' v' p hp with he | ⟨hmem, _⟩
  · rw [he] at hk; exact absurd hk h
  · exact h2 p hmem hk

theorem mapSet_of_unif (l : List (String × String)) (k v : String)
    (hu : Unif l k v) : mapSet l k v = l := by
  obtain ⟨h1, h2⟩ := hu
  have h1' : (l.find? (fun q => q.1 == k)).isSome := by
    simpa [hasKey] using h1
  simp only [mapSet, if_pos h1']
  have hid : ∀ p ∈ l, (if p.1 == k then (k, v) else p) = p := by
    intro p hp
    by_cases hk : p.1 = k
    · have hv := h2 p hp hk
      have hb : (p.1 == k) = true := by simp [hk]
      rw [if_pos hb, ← hk, ← hv]
    · have hb : (p.1 == k) = false := by simp [hk]
      simp [hb]
  rw [List.map_congr_left hid]
  simp

theorem mapGet_of_unif (l : List (String × String)) (k v : String)
    (hu : Unif l k v) : mapGet l k = v := by
  obtain ⟨h1, h2⟩ := hu
  have h1' : (l.find? (fun q => q.1 == k)).isSome := by simpa [hasKey] using h1
  rw [Option.isSome_iff_exists] at h1'
  obtain ⟨p, hp⟩ := h1'
  have hp1 : p.1 = k := by simpa using List.find?_some hp
  rw [mapGet, hp]
  exact h2 p (List.mem_of_find?_eq_some hp) hp1

/-! ## Lemmas about merging defaults -/

theorem mergeDefaults_nil (l : List (String × String)) : mergeDefaults l [] = l := rfl

theorem mergeDefaults_cons (l : List (String × String)) (d : String × String)
    (ds : List (String × String)) :
    mergeDefaults l (d :: ds) =
      mergeDefaults (if mapGet l d.1 == "" then mapSet l d.1 d.2 else l) ds := rfl

/-- Merging never changes a key that is already non-empty. -/
theorem mergeDefaults_get_ne_empty (ds : List (String × String))
    (l : List (String × String)) (k : String) (h : mapGet l k ≠ "") :
    mapGet (mergeDefaults l ds) k = mapGet l k := by
  induction ds generalizing l with
  | nil => rfl
  | cons d ds ih =>
    rw [mergeDefaults_cons]
    by_cases hd : mapGet l d.1 = ""
    · have hb : (mapGet l d.1 == "") = true := by simp [hd]
      rw [if_pos hb]
      have hdk : d.1 ≠ k := fun he => h (he ▸ hd)
      rw [ih _ (by rw [mapGet_mapSet_ne _ _ _ _ (Ne.symm hdk)]; exact h),
        mapGet_mapSet_ne _ _ _ _ (Ne.symm hdk)]
    · have hb : (mapGet l d.1 == "") = false := by simp [hd]
      rw [if_neg (by simp [hb])]
      exact ih l h

/-- Merging never touches a key outside the default set. -/
theorem mergeDefaults_get_of_keys_ne (ds : List (String × String))
    (l : List (String × String)) (k : String) (h : ∀ d ∈ ds, d.1 ≠ k) :
    mapGet (mergeDefaults l ds) k = mapGet l k := by
  induction ds generalizing l with
  | nil => rfl
  | cons d ds ih =>
    rw [mergeDefaults_cons]
    have hdk : d.1 ≠ k := h d (List.mem_cons_self d ds)
    have hrest : ∀ d' ∈ ds, d'.1 ≠ k := fun d' hd' => h d' (List.mem_cons_of_mem d hd')
    by_cases hd : mapGet l d.1 = ""
    · have hb : (mapGet l d.1 == "") = true := by simp [hd]
      rw [if_pos hb, ih _ hrest, mapGet_mapSet_ne _ _ _ _ (Ne.symm hdk)]
    · have hb : (mapGet l d.1 == "") = false := by simp [hd]
      rw [if_neg (by simp [hb])]
      exact ih l hrest

/-- Merging preserves value uniformity of a key outside the default set. -/
theorem mergeDefaults_unif (ds : List (String × String))
    (l : List (String × String)) (k v : String) (hu : Unif l k v)
    (h : ∀ d ∈ ds, d.1 ≠ k) : Unif (mergeDefaults l ds) k v := by
  induction ds generalizing l with
  | nil => exact hu
  | cons d ds ih =>
    rw [mergeDefaults_cons]
    have hdk : d.1 ≠ k := h d (List.mem_cons_self d ds)
    have hrest : ∀ d' ∈ ds, d'.1 ≠ k := fun d' hd' => h d' (List.mem_cons_of_mem d hd')
    by_cases hd : mapGet l d.1 = ""
    · have hb : (mapGet l d.1 == "") = true := by simp [hd]
      rw [if_pos hb]
      exact ih _ (unif_mapSet_ne l k v d.1 d.2 hu hdk) hrest
    · have hb : (mapGet l d.1 == "") = false := by simp [hd]
      rw [if_neg (by simp [hb])]
      exact ih l hu hrest

/-- After a merge with non-empty default values, every default key is
non-empty. -/
theorem mergeDefaults_vals_ne_empty (ds : List (String × String))
    (l : List (String × String)) (hv : ∀ d ∈ ds, d.2 ≠ "") :
    ∀ d ∈ ds, mapGet (mergeDefaults l ds) d.1 ≠ "" := by
  revert hv
  induction ds generalizing l with
  | nil => intro _ d hd; exact absurd hd (List.not_mem_nil d)
  | cons d0 ds ih =>
    intro hv d hd
    rw [mergeDefaults_cons]
    have hvrest : ∀ q ∈ ds, q.2 ≠ "" := fun q hq => hv q (List.mem_cons_of_mem d0 hq)
    rcases List.mem_cons.mp hd with he | hm
    · rw [he]
      by_cases hd0 : mapGet l d0.1 = ""
      · have hb : (mapGet l d0.1 == "") = true := by simp [hd0]
        rw [if_pos hb]
        by_cases hmem : ∀ d' ∈ ds, d'.1 ≠ d0.1
        · rw [mergeDefaults_get_of_keys_ne ds _ _ hmem, mapGet_mapSet_self]
          exact he ▸ hv d hd
        · push_neg at hmem
          obtain ⟨d', hd', he'⟩ := hmem
          have := ih (mapSet l d0.1 d0.2) hvrest d' hd'
          rw [he'] at this
          exact this
      · have hb : (mapGet l d0.1 == "") = false := by simp [hd0]
        rw [if_neg (by simp [hb])]
        rw [mergeDefaults_get_ne_empty ds l d0.1 hd0]
        exact hd0
    · exact ih _ hvrest d hm

/-- Merging into a map on which every default key is already non-empty is
the identity. -/
theorem mergeDefaults_id (ds : List (String × String))
    (l : List (String × String)) (h : ∀ d ∈ ds, mapGet l d.1 ≠ "") :
    mergeDefaults l ds = l := by
  induction ds with
  | nil => rfl
  | cons d ds ih =>
    rw [mergeDefaults_cons]
    have hd : mapGet l d.1 ≠ "" := h d (List.mem_cons_self d ds)
    have hb : (mapGet l d.1 == "") = false := by simp [hd]
    rw [if_neg (by simp [hb])]
    exact ih (fun q hq => h q (List.mem_cons_of_mem d hq))

/-! ## Non-emptiness of rendered strings -/

theorem natToStr_ne_empty (n : Nat) : natToStr n ≠ "" := by
  rw [natToStr]
  by_cases h : n = 0
  · rw [if_pos h]; intro he; simp at he
  · rw [if_neg h]
    intro he
    have hd : (natToRevChars n).reverse = [] := congrArg String.data he
    rw [List.reverse_eq_nil_iff] at hd
    obtain ⟨m, hm⟩ := Nat.exists_eq_succ_of_ne_zero h
    rw [natToRevChars, hm] at hd
    simp [natToRevCharsAux] at hd

theorem ipToString_ne_empty (n : Nat) : ipToString n ≠ "" := by
  intro he
  have hd : (ipToString n).data = [] := congrArg String.data he
  rw [ipToString] at hd
  simp only [String.data_append] at hd
  rcases List.append_eq_nil.mp hd with ⟨h1, _⟩
  rcases List.append_eq_nil.mp h1 with ⟨h2, _⟩
  rcases List.append_eq_nil.mp h2 with ⟨h3, _⟩
  rcases List.append_eq_nil.mp h3 with ⟨h4, _⟩
  rcases List.append_eq_nil.mp h4 with ⟨h5, _⟩
  rcases List.append_eq_nil.mp h5 with ⟨h6, _⟩
  exact natToStr_ne_empty _ (by ext1; exact h6)


/-! ## Lemmas about the datacenter-scoped defaults -/

theorem getCNType_ne_empty (d : DCConf) : getCNType d ≠ "" := by
  rw [getCNType]
  by_cases h : d.cnType = ""
  · rw [if_pos (by simp [h])]; decide
  · rw [if_neg (by simp [h])]; exact h

theorem getCNNetworkCIDR_ne_empty (d : DCConf) : getCNNetworkCIDR d ≠ "" := by
  rw [getCNNetworkCIDR]
  by_cases h : d.cnNetworkCIDR = ""
  · rw [if_pos (by simp [h])]; decide
  · rw [if_neg (by simp [h])]; exact h

theorem getCNInterface_ne_empty (d : DCConf) : getCNInterface d ≠ "" := by
  rw [getCNInterface]
  by_cases h : d.cnInterface = ""
  · rw [if_pos (by simp [h])]; decide
  · rw [if_neg (by simp [h])]; exact h

theorem getCSPersistenceLocation_ne_empty (d : DCConf) :
    getCSPersistenceLocation d ≠ "" := by
  rw [getCSPersistenceLocation]
  by_cases h : d.csPersistenceLocation = ""
  · rw [if_pos (by simp [h])]; decide
  · rw [if_neg (by simp [h])]; exact h

theorem getCSReplicaCount_ne_empty (d : DCConf) (s : String)
    (h : getCSReplicaCount d = .ok s) : s ≠ "" := by
  rw [getCSReplicaCount] at h
  split at h
  · injection h with h
    rw [← h]; decide
  · rename_i hbe
    split at h
    · exact absurd h (by simp)
    · split at h
      · exact absurd h (by simp)
      · injection h with h
        rw [← h]
        intro hc
        exact hbe (by simp [hc])

theorem CN_ok_elim (c : NomadConfig) (dcName : String) (cn : List (String × String))
    (h : CN c dcName = .ok cn) :
    ∃ d, validateConf c dcName = .ok d ∧
      cn = [(cnTypeLbl, getCNType d), (cnNetworkCIDRLbl, getCNNetworkCIDR d),
            (cnInterfaceLbl, getCNInterface d)] := by
  rw [CN] at h
  cases hv : validateConf c dcName with
  | error e => rw [hv] at h; exact absurd h (by simp [Bind.bind, Except.bind])
  | ok d =>
    rw [hv] at h
    simp only [Bind.bind, Except.bind] at h
    injection h with h
    exact ⟨d, rfl, h.symm⟩

theorem CN_vals_ne_empty (c : NomadConfig) (dcName : String)
    (cn : List (String × String)) (h : CN c dcName = .ok cn) :
    ∀ p ∈ cn, p.2 ≠ "" := by
  obtain ⟨d, _, hcn⟩ := CN_ok_elim c dcName cn h
  intro p hp
  rw [hcn] at hp
  simp only [List.mem_cons, List.not_mem_nil, or_false] at hp
  rcases hp with hp | hp | hp
  · rw [hp]; exact getCNType_ne_empty d
  · rw [hp]; exact getCNNetworkCIDR_ne_empty d
  · rw [hp]; exact getCNInterface_ne_empty d

theorem CN_keys (c : NomadConfig) (dcName : String)
    (cn : List (String × String)) (h : CN c dcName = .ok cn) :
    ∀ p ∈ cn, p.1 = cnTypeLbl ∨ p.1 = cnNetworkCIDRLbl ∨ p.1 = cnInterfaceLbl := by
  obtain ⟨d, _, hcn⟩ := CN_ok_elim c dcName cn h
  intro p hp
  rw [hcn] at hp
  simp only [List.mem_cons, List.not_mem_nil, or_false] at hp
  rcases hp with hp | hp | hp
  · left; rw [hp]
  · right; left; rw [hp]
  · right; right; rw [hp]

theorem CS_ok_elim (c : NomadConfig) (dcName : String) (cs : List (String × String))
    (h : CS c dcName = .ok cs) :
    ∃ d repCount, validateConf c dcName = .ok d ∧
      getCSReplicaCount d = .ok repCount ∧
      cs = [(persistLocLbl, getCSPersistenceLocation d), (replicaCountLbl, repCount)] := by
  rw [CS] at h
  cases hv : validateConf c dcName with
  | error e => rw [hv] at h; exact absurd h (by simp [Bind.bind, Except.bind])
  | ok d =>
    rw [hv] at h
    simp only [Bind.bind, Except.bind] at h
    cases hr : getCSReplicaCount d with
    | error e => rw [hr] at h; exact absurd h (by simp)
    | ok repCount =>
      rw [hr] at h
      injection h with h
      exact ⟨d, repCount, rfl, hr, h.symm⟩

theorem CS_vals_ne_empty (c : NomadConfig) (dcName : String)
    (cs : List (String × String)) (h : CS c dcName = .ok cs) :
    ∀ p ∈ cs, p.2 ≠ "" := by
  obtain ⟨d, repCount, _, hr, hcs⟩ := CS_ok_elim c dcName cs h
  intro p hp
  rw [hcs] at hp
  simp only [List.mem_cons, List.not_mem_nil, or_false] at hp
  rcases hp with hp | hp
  · rw [hp]; exact getCSPersistenceLocation_ne_empty d
  · rw [hp]; exact getCSReplicaCount_ne_empty d repCount hr

theorem CS_keys (c : NomadConfig) (dcName : String)
    (cs : List (String × String)) (h : CS c dcName = .ok cs) :
    ∀ p ∈ cs, p.1 = persistLocLbl ∨ p.1 = replicaCountLbl := by
  obtain ⟨d, repCount, _, _, hcs⟩ := CS_ok_elim c dcName cs h
  intro p hp
  rw [hcs] at hp
  simp only [List.mem_cons, List.not_mem_nil, or_false] at hp
  rcases hp with hp | hp
  · left; rw [hp]
  · right; rw [hp]

/-! ## Lemmas about the integer-valued map embedding -/

theorem reqGet_cons (p : String × Int) (r : List (String × Int)) (k : String) :
    reqGet (p :: r) k = if p.1 = k then p.2 else reqGet r k := by
  by_cases h : p.1 = k
  · have hb : (p.1 == k) = true := by simp [h]
    simp [reqGet, List.find?, hb, h]
  · have hb : (p.1 == k) = false := by simp [h]
    simp [reqGet, List.find?, hb, h]

theorem reqSet_cons (p : String × Int) (r : List (String × Int)) (k : String) (v : Int) :
    reqSet (p :: r) k v =
      if p.1 = k then (k, v) :: r.map (fun q => if q.1 == k then (k, v) else q)
      else p :: reqSet r k v := by
  by_cases h : p.1 = k
  · have hb : (p.1 == k) = true := by simp [h]
    simp [reqSet, List.find?, hb, h]
  · have hb : (p.1 == k) = false := by simp [h]
    cases hf : r.find? (fun q => q.1 == k) <;>
      simp [reqSet, List.find?, hb, h, hf]

theorem reqGet_map_replace_ne (r : List (String × Int)) (k : String) (v : Int)
    (k' : String) (h : k' ≠ k) :
    reqGet (r.map (fun q => if q.1 == k then (k, v) else q)) k' = reqGet r k' := by
  induction r with
  | nil => rfl
  | cons q s ih =>
    rw [List.map_cons, reqGet_cons, reqGet_cons]
    by_cases hq : q.1 = k
    · simp only [hq, beq_self_eq_true, if_true]
      rw [if_neg (by exact Ne.symm h), if_neg (fun hc : k = k' => h hc.symm)]
      exact ih
    · have hb : (q.1 == k) = false := by simp [hq]
      simp only [hb, Bool.false_eq_true, if_false]
      by_cases hq' : q.1 = k'
      · rw [if_pos hq', if_pos hq']
      · rw [if_neg hq', if_neg hq']
        exact ih

theorem reqGet_reqSet_self (l : List (String × Int)) (k : String) (v : Int) :
    reqGet (reqSet l k v) k = v := by
  induction l with
  | nil => simp [reqSet, reqGet, List.find?]
  | cons p r ih =>
    rw [reqSet_cons]
    by_cases h : p.1 = k
    · simp [h, reqGet_cons]
    · simp [h, reqGet_cons, ih]

theorem reqGet_reqSet_ne (l : List (String × Int)) (k : String) (v : Int)
    (k' : String) (h : k' ≠ k) :
    reqGet (reqSet l k v) k' = reqGet l k' := by
  induction l with
  | nil =>
    have hb : (k == k') = false := by simp [Ne.symm h]
    simp [reqSet, reqGet, List.find?, hb]
  | cons p r ih =>
    rw [reqSet_cons]
    by_cases hp : p.1 = k
    · rw [if_pos hp, reqGet_cons, reqGet_cons]
      rw [if_neg (by exact Ne.symm h), if_neg (fun hc : p.1 = k' => h (hc ▸ hp))]
      exact reqGet_map_replace_ne r k v k' h
    · rw [if_neg hp, reqGet_cons, reqGet_cons, ih]

/-! ## Stage inversion lemmas for the resolution pipeline -/

theorem setJivaLblProps_ok (p q : PVC) (h : setJivaLblProps p = .ok q) :
    q.name = p.name ∧ q.requests = p.requests ∧
    ∃ l l', p.labels = some l ∧ q.labels = some l' ∧
      mapGet l' ctrlImageLbl ≠ "" ∧
      ∀ k, mapGet l k ≠ "" → mapGet l' k = mapGet l k := by
  cases hl : p.labels with
  | none => simp [setJivaLblProps, hl] at h
  | some l =>
    simp only [setJivaLblProps, hl, beq_iff_eq] at h
    by_cases hc : mapGet l ctrlImageLbl = ""
    · rw [if_pos hc] at h
      injection h with h
      rw [← h]
      refine ⟨rfl, rfl, l, _, rfl, rfl, ?_, ?_⟩
      · rw [mapGet_mapSet_self]; decide
      · intro k hk
        have hkc : k ≠ ctrlImageLbl := fun he => hk (he ▸ hc)
        rw [mapGet_mapSet_ne _ _ _ _ hkc]
    · rw [if_neg hc] at h
      injection h with h
      rw [← h]
      exact ⟨rfl, rfl, l, l, rfl, hl, hc, fun k _ => rfl⟩

theorem setJivaLblProps_skip (p : PVC) (l : List (String × String))
    (hl : p.labels = some l) (hc : mapGet l ctrlImageLbl ≠ "") :
    setJivaLblProps p = .ok p := by
  simp only [setJivaLblProps, hl, beq_iff_eq]
  rw [if_neg hc]

theorem setJivaSpecProps_ok (p q : PVC) (h : setJivaSpecProps p = .ok q) :
    q.name = p.name ∧ q.labels = p.labels ∧
    ∃ m m', p.requests = some m ∧ q.requests = some m' ∧
      0 < reqGet m' feVolSizeLbl ∧ 0 < reqGet m' beVolSizeLbl := by
  cases hm : p.requests with
  | none => simp [setJivaSpecProps, hm] at h
  | some m =>
    simp only [setJivaSpecProps, hm, Bind.bind, Except.bind, pure, Except.pure,
      getStorageSize] at h
    split at h
    · rename_i hfe
      split at h
      · rename_i x err heq
        exact absurd h (by simp)
      · rename_i x v heq
        by_cases hs : reqGet m "storage" ≤ 0
        · rw [if_pos hs] at heq; exact absurd heq (by simp)
        · rw [if_neg hs] at heq
          injection heq with heq
          push_neg at hs
          by_cases hbe : reqGet (reqSet m feVolSizeLbl v) beVolSizeLbl ≤ 0
          · rw [if_pos hbe] at h
            split at h
            · rename_i x2 err2 heq2
              exact absurd h (by simp)
            · rename_i x2 v2 heq2
              by_cases hs2 : reqGet (reqSet m feVolSizeLbl v) "storage" ≤ 0
              · rw [if_pos hs2] at heq2; exact absurd heq2 (by simp)
              · rw [if_neg hs2] at heq2
                injection heq2 with heq2
                push_neg at hs2
                injection h with h
                rw [← h]
                refine ⟨rfl, rfl, m, _, rfl, rfl, ?_, ?_⟩
                · rw [reqGet_reqSet_ne _ _ _ _ (by decide), reqGet_reqSet_self, ← heq]
                  exact hs
                · rw [reqGet_reqSet_self, ← heq2]
                  exact hs2
          · rw [if_neg hbe] at h
            push_neg at hbe
            injection h with h
            rw [← h]
            refine ⟨rfl, rfl, m, _, rfl, rfl, ?_, ?_⟩
            · rw [reqGet_reqSet_self, ← heq]
              exact hs
            · exact hbe
    · rename_i hfe
      push_neg at hfe
      split at h
      · rename_i hbe
        split at h
        · rename_i x err heq
          exact absurd h (by simp)
        · rename_i x v heq
          by_cases hs : reqGet m "storage" ≤ 0
          · rw [if_pos hs] at heq; exact absurd heq (by simp)
          · rw [if_neg hs] at heq
            injection heq with heq
            push_neg at hs
            injection h with h
            rw [← h]
            refine ⟨rfl, rfl, m, _, rfl, rfl, ?_, ?_⟩
            · rw [reqGet_reqSet_ne _ _ _ _ (by decide)]
              exact hfe
            · rw [reqGet_reqSet_self, ← heq]
              exact hs
      · rename_i hbe
        push_neg at hbe
        injection h with h
        rw [← h]
        exact ⟨rfl, rfl, m, m, rfl, rfl, hfe, hbe⟩

theorem setJivaSpecProps_skip (p : PVC) (m : List (String × Int))
    (hm : p.requests = some m) (hfe : 0 < reqGet m feVolSizeLbl)
    (hbe : 0 < reqGet m beVolSizeLbl) :
    setJivaSpecProps p = .ok p := by
  simp only [setJivaSpecProps, hm, Bind.bind, Except.bind, pure, Except.pure]
  rw [if_neg (by push_neg; exact hfe), if_neg (by push_neg; exact hbe)]
  have he : { p with requests := some m } = p := by
    cases p; simp only at hm; rw [hm]
  rw [he]

theorem setRegion_ok (env : Env) (p q : PVC) (h : setRegion env p = .ok q) :
    q.name = p.name ∧ q.requests = p.requests ∧
    ∃ l l', p.labels = some l ∧ q.labels = some l' ∧
      mapGet l' regionLbl ≠ "" ∧
      ∀ k, mapGet l k ≠ "" → mapGet l' k = mapGet l k := by
  cases hl : p.labels with
  | none => simp [setRegion, hl] at h
  | some l =>
    simp only [setRegion, hl, bne_iff_ne, ne_eq, beq_iff_eq] at h
    by_cases hr : mapGet l regionLbl = ""
    · rw [if_neg (by simp [hr])] at h
      by_cases he : env.region = ""
      · rw [if_pos he] at h; exact absurd h (by simp)
      · rw [if_neg he] at h
        injection h with h
        rw [← h]
        refine ⟨rfl, rfl, l, _, rfl, rfl, ?_, ?_⟩
        · rw [mapGet_mapSet_self]; exact he
        · intro k hk
          have hkc : k ≠ regionLbl := fun hkk => hk (hkk ▸ hr)
          rw [mapGet_mapSet_ne _ _ _ _ hkc]
    · rw [if_pos (by simp [hr])] at h
      injection h with h
      rw [← h]
      exact ⟨rfl, rfl, l, l, rfl, hl, hr, fun k _ => rfl⟩

theorem setRegion_skip (env : Env) (p : PVC) (l : List (String × String))
    (hl : p.labels = some l) (hr : mapGet l regionLbl ≠ "") :
    setRegion env p = .ok p := by
  simp only [setRegion, hl, bne_iff_ne, ne_eq]
  rw [if_pos (by simp [hr])]

theorem setDC_ok (env : Env) (p q : PVC) (dc : String)
    (h : setDC env p = .ok (dc, q)) :
    q.name = p.name ∧ q.requests = p.requests ∧ dc ≠ "" ∧
    ∃ l l', p.labels = some l ∧ q.labels = some l' ∧
      mapGet l' dcLbl = dc ∧
      ∀ k, mapGet l k ≠ "" → mapGet l' k = mapGet l k := by
  cases hl : p.labels with
  | none => simp [setDC, hl] at h
  | some l =>
    simp only [setDC, hl, bne_iff_ne, ne_eq, beq_iff_eq] at h
    by_cases hd : mapGet l dcLbl = ""
    · rw [if_neg (by simp [hd])] at h
      by_cases he : env.defaultDC = ""
      · rw [if_pos he] at h; exact absurd h (by simp)
      · rw [if_neg he] at h
        injection h with h
        injection h with h1 h2
        rw [← h2]
        refine ⟨rfl, rfl, h1 ▸ he, l, _, rfl, rfl, ?_, ?_⟩
        · rw [mapGet_mapSet_self]; exact h1
        · intro k hk
          have hkc : k ≠ dcLbl := fun hkk => hk (hkk ▸ hd)
          rw [mapGet_mapSet_ne _ _ _ _ hkc]
    · rw [if_pos (by simp [hd])] at h
      injection h with h
      injection h with h1 h2
      rw [← h2]
      exact ⟨rfl, rfl, h1 ▸ hd, l, l, rfl, hl, h1, fun k _ => rfl⟩

theorem setDC_skip (env : Env) (p : PVC) (l : List (String × String))
    (hl : p.labels = some l) (hd : mapGet l dcLbl ≠ "") :
    setDC env p = .ok (mapGet l dcLbl, p) := by
  simp only [setDC, hl, bne_iff_ne, ne_eq]
  rw [if_pos (by simp [hd])]

theorem setCS_ok (env : Env) (dc : String) (p q : PVC) (h : setCS env dc p = .ok q) :
    q.name = p.name ∧ q.requests = p.requests ∧ dc ≠ "" ∧
    ∃ l cs, p.labels = some l ∧ CS env.conf dc = .ok cs ∧
      q.labels = some (mergeDefaults l cs) ∧
      (∀ d ∈ cs, mapGet (mergeDefaults l cs) d.1 ≠ "") ∧
      ∀ k, mapGet l k ≠ "" → mapGet (mergeDefaults l cs) k = mapGet l k := by
  cases hl : p.labels with
  | none => simp [setCS, hl] at h
  | some l =>
    simp only [setCS, hl, beq_iff_eq, Bind.bind, Except.bind] at h
    by_cases hd : dc = ""
    · rw [if_pos hd] at h; exact absurd h (by simp)
    · rw [if_neg hd] at h
      cases hcs : CS env.conf dc with
      | error e => rw [hcs] at h; exact absurd h (by simp)
      | ok cs =>
        rw [hcs] at h
        injection h with h
        rw [← h]
        refine ⟨rfl, rfl, hd, l, cs, rfl, rfl, rfl, ?_, ?_⟩
        · exact mergeDefaults_vals_ne_empty cs l (CS_vals_ne_empty env.conf dc cs hcs)
        · exact fun k hk => mergeDefaults_get_ne_empty cs l k hk

theorem setCS_skip (env : Env) (dc : String) (p : PVC) (l : List (String × String))
    (cs : List (String × String)) (hl : p.labels = some l) (hd : dc ≠ "")
    (hcs : CS env.conf dc = .ok cs) (hne : ∀ d ∈ cs, mapGet l d.1 ≠ "") :
    setCS env dc p = .ok p := by
  simp only [setCS, hl, beq_iff_eq, Bind.bind, Except.bind, hcs]
  rw [if_neg hd, mergeDefaults_id cs l hne]
  have he : { p with labels := some l } = p := by
    cases p; simp only at hl; rw [hl]
  rw [he]

/-! ## Lemmas about the allocator and the setCN helpers -/

theorem GetAvailableIPs_ok_elim (s : String) (k : Int) (ips : List String)
    (h : GetAvailableIPs s k = .ok ips) :
    ∃ ip pfx, parseCIDR s = some (ip, pfx) ∧ 0 < k ∧ k.toNat ≤ hostCount pfx ∧
      ips = (availableNats ip pfx k.toNat).map ipToString := by
  rw [GetAvailableIPs] at h
  cases hp : parseCIDR s with
  | none => rw [hp] at h; exact absurd h (by simp)
  | some pr =>
    obtain ⟨ip, pfx⟩ := pr
    rw [hp] at h
    simp only at h
    by_cases hk : k ≤ 0
    · rw [if_pos hk] at h; exact absurd h (by simp)
    · rw [if_neg hk] at h
      by_cases hh : hostCount pfx < k.toNat
      · rw [if_pos hh] at h; exact absurd h (by simp)
      · rw [if_neg hh] at h
        injection h with h
        push_neg at hk hh
        exact ⟨ip, pfx, rfl, hk, hh, h.symm⟩

theorem GetAvailableIPs_ok_intro (s : String) (k : Int) (ip pfx : Nat)
    (hp : parseCIDR s = some (ip, pfx)) (hk : 0 < k) (hh : k.toNat ≤ hostCount pfx) :
    GetAvailableIPs s k = .ok ((availableNats ip pfx k.toNat).map ipToString) := by
  rw [GetAvailableIPs, hp]
  simp only
  rw [if_neg (by push_neg; exact hk), if_neg (by push_neg; exact hh)]

theorem GetAvailableIPs_length (s : String) (k : Int) (ips : List String)
    (h : GetAvailableIPs s k = .ok ips) : ips.length = k.toNat := by
  obtain ⟨ip, pfx, _, _, _, he⟩ := GetAvailableIPs_ok_elim s k ips h
  rw [he, List.length_map, availableNats, List.length_range']

theorem GetAvailableIPs_headD_ne_empty (s : String) (k : Int) (ips : List String)
    (h : GetAvailableIPs s k = .ok ips) : ips.headD "" ≠ "" := by
  obtain ⟨ip, pfx, _, hk, _, he⟩ := GetAvailableIPs_ok_elim s k ips h
  obtain ⟨n, hn⟩ : ∃ n, k.toNat = n + 1 := by
    refine ⟨k.toNat - 1, ?_⟩
    omega
  rw [he, availableNats, hn, List.range'_succ, List.map_cons, List.headD_cons]
  exact ipToString_ne_empty _

theorem getBackendCount_of (p : PVC) (r : Int)
    (ha : atoi (pvcGet p replicaCountLbl) = some r) : getBackendCount p = .ok r := by
  rw [getBackendCount, ha]

theorem setBackendIPsAsString_of_some (ips : List String) (p : PVC)
    (l : List (String × String)) (hl : p.labels = some l) :
    setBackendIPsAsString ips p =
      .ok { p with labels := some (mapSet l replicaIPsLbl (joinTrim ips)) } := by
  rw [setBackendIPsAsString, hl]

/-- Everything a successful `setCN` guarantees about the resulting label
map: the subnet key is uniformly the derived subnet, the network CIDR is
unchanged, the frontend IP is non-empty, every datacenter networking
default key is non-empty, and every other non-empty key kept its value. -/
theorem setCN_ok (env : Env) (dc : String) (p q : PVC) (h : setCN env dc p = .ok q) :
    q.name = p.name ∧ q.requests = p.requests ∧ dc ≠ "" ∧
    ∃ l cn sub lq,
      p.labels = some l ∧ CN env.conf dc = .ok cn ∧
      mapGet (mergeDefaults l cn) cnNetworkCIDRLbl ≠ "" ∧
      CIDRSubnet (mapGet (mergeDefaults l cn) cnNetworkCIDRLbl) = .ok sub ∧
      q.labels = some lq ∧
      Unif lq cnSubnetLbl sub ∧
      mapGet lq cnNetworkCIDRLbl = mapGet (mergeDefaults l cn) cnNetworkCIDRLbl ∧
      mapGet lq ctrlIPLbl ≠ "" ∧
      (∀ d ∈ cn, mapGet lq d.1 ≠ "") ∧
      (∀ k, k ≠ cnSubnetLbl → mapGet l k ≠ "" → mapGet lq k = mapGet l k) := by
  cases hl : p.labels with
  | none => simp [setCN, hl] at h
  | some l =>
    simp only [setCN, hl, beq_iff_eq, Bind.bind, Except.bind, Bool.and_eq_true] at h
    split at h
    · exact absurd h (by simp)
    · rename_i hd
      split at h
      · exact absurd h (by simp)
      · rename_i x cn hcn
        split at h
        · exact absurd h (by simp)
        · rename_i hncidr
          split at h
          · exact absurd h (by simp)
          · rename_i x2 sub hsub
            have hsub_unif :
                Unif (mapSet (mergeDefaults l cn) cnSubnetLbl sub) cnSubnetLbl sub :=
              unif_mapSet_self _ _ _
            have hncidr2 :
                mapGet (mapSet (mergeDefaults l cn) cnSubnetLbl sub) cnNetworkCIDRLbl =
                  mapGet (mergeDefaults l cn) cnNetworkCIDRLbl :=
              mapGet_mapSet_ne _ _ _ _ (by decide)
            have hcnvals : ∀ d ∈ cn,
                mapGet (mapSet (mergeDefaults l cn) cnSubnetLbl sub) d.1 ≠ "" := by
              intro d hd2
              have h1 : mapGet (mergeDefaults l cn) d.1 ≠ "" :=
                mergeDefaults_vals_ne_empty cn l (CN_vals_ne_empty env.conf dc cn hcn) d hd2
              rcases CN_keys env.conf dc cn hcn d hd2 with hk | hk | hk <;>
                rw [hk] at h1 ⊢ <;>
                rw [mapGet_mapSet_ne _ _ _ _ (by decide)] <;> exact h1
            have hframe2 : ∀ k, k ≠ cnSubnetLbl → mapGet l k ≠ "" →
                mapGet (mapSet (mergeDefaults l cn) cnSubnetLbl sub) k = mapGet l k := by
              intro k hk hne
              rw [mapGet_mapSet_ne _ _ _ _ hk, mergeDefaults_get_ne_empty cn l k hne]
            split at h
            · rename_i hcond
              obtain ⟨hfe, hbe⟩ := hcond
              split at h
              · exact absurd h (by simp)
              · rename_i x3 r hr
                split at h
                · exact absurd h (by simp)
                · rename_i x4 ips hips
                  rw [setBackendIPsAsString_of_some _ _
                    (mapSet (mapSet (mergeDefaults l cn) cnSubnetLbl sub) ctrlIPLbl
                      (ips.headD "")) rfl] at h
                  injection h with h
                  rw [← h]
                  refine ⟨rfl, rfl, hd, l, cn, sub, _, rfl, hcn, hncidr, hsub,
                    rfl, ?_, ?_, ?_, ?_, ?_⟩
                  · exact unif_mapSet_ne _ _ _ _ _
                      (unif_mapSet_ne _ _ _ _ _ hsub_unif (by decide)) (by decide)
                  · rw [mapGet_mapSet_ne _ _ _ _ (by decide),
                      mapGet_mapSet_ne _ _ _ _ (by decide)]
                    exact hncidr2
                  · rw [mapGet_mapSet_ne _ _ _ _ (by decide), mapGet_mapSet_self]
                    exact GetAvailableIPs_headD_ne_empty _ _ _ hips
                  · intro d hd2
                    have h1 := hcnvals d hd2
                    rcases CN_keys env.conf dc cn hcn d hd2 with hk | hk | hk <;>
                      rw [hk] at h1 ⊢ <;>
                      rw [mapGet_mapSet_ne _ _ _ _ (by decide),
                        mapGet_mapSet_ne _ _ _ _ (by decide)] <;> exact h1
                  · intro k hk hne
                    have h2 := hframe2 k hk hne
                    have hkfe : k ≠ ctrlIPLbl := by
                      intro he
                      rw [he] at h2 hne
                      rw [hfe] at h2
                      exact hne h2.symm
                    have hkbe : k ≠ replicaIPsLbl := by
                      intro he
                      rw [he] at h2 hne
                      rw [hbe] at h2
                      exact hne h2.symm
                    rw [mapGet_mapSet_ne _ _ _ _ hkbe, mapGet_mapSet_ne _ _ _ _ hkfe]
                    exact h2
            · rename_i hcond1
              split at h
              · rename_i hfe
                split at h
                · exact absurd h (by simp)
                · rename_i x3 ips hips
                  injection h with h
                  rw [← h]
                  refine ⟨rfl, rfl, hd, l, cn, sub, _, rfl, hcn, hncidr, hsub,
                    rfl, ?_, ?_, ?_, ?_, ?_⟩
                  · exact unif_mapSet_ne _ _ _ _ _ hsub_unif (by decide)
                  · rw [mapGet_mapSet_ne _ _ _ _ (by decide)]
                    exact hncidr2
                  · rw [mapGet_mapSet_self]
                    exact GetAvailableIPs_headD_ne_empty _ _ _ hips
                  · intro d hd2
                    have h1 := hcnvals d hd2
                    rcases CN_keys env.conf dc cn hcn d hd2 with hk | hk | hk <;>
                      rw [hk] at h1 ⊢ <;>
                      rw [mapGet_mapSet_ne _ _ _ _ (by decide)] <;> exact h1
                  · intro k hk hne
                    have h2 := hframe2 k hk hne
                    have hkfe : k ≠ ctrlIPLbl := by
                      intro he
                      rw [he] at h2 hne
                      rw [hfe] at h2
                      exact hne h2.symm
                    rw [mapGet_mapSet_ne _ _ _ _ hkfe]
                    exact h2
              · rename_i hfe
                split at h
                · rename_i hbe
                  rw [setBackendIPs] at h
                  simp only [Bind.bind, Except.bind] at h
                  split at h
                  · exact absurd h (by simp)
                  · rename_i x3 r hr
                    split at h
                    · exact absurd h (by simp)
                    · rename_i x4 ips hips
                      rw [setBackendIPsAsString_of_some _ _
                        (mapSet (mergeDefaults l cn) cnSubnetLbl sub) rfl] at h
                      injection h with h
                      rw [← h]
                      refine ⟨rfl, rfl, hd, l, cn, sub, _, rfl, hcn, hncidr, hsub,
                        rfl, ?_, ?_, ?_, ?_, ?_⟩
                      · exact unif_mapSet_ne _ _ _ _ _ hsub_unif (by decide)
                      · rw [mapGet_mapSet_ne _ _ _ _ (by decide)]
                        exact hncidr2
                      · rw [mapGet_mapSet_ne _ _ _ _ (by decide)]
                        exact hfe
                      · intro d hd2
                        have h1 := hcnvals d hd2
                        rcases CN_keys env.conf dc cn hcn d hd2 with hk | hk | hk <;>
                          rw [hk] at h1 ⊢ <;>
                          rw [mapGet_mapSet_ne _ _ _ _ (by decide)] <;> exact h1
                      · intro k hk hne
                        have h2 := hframe2 k hk hne
                        have hkbe : k ≠ replicaIPsLbl := by
                          intro he
                          rw [he] at h2 hne
                          rw [hbe] at h2
                          exact hne h2.symm
                        rw [mapGet_mapSet_ne _ _ _ _ hkbe]
                        exact h2
                · rename_i hbe
                  injection h with h
                  rw [← h]
                  refine ⟨rfl, rfl, hd, l, cn, sub, _, rfl, hcn, hncidr, hsub,
                    rfl, hsub_unif, hncidr2, hfe, hcnvals, hframe2⟩

theorem pvcGet_of_some (p : PVC) (l : List (String × String)) (k : String)
    (hl : p.labels = some l) : pvcGet p k = mapGet l k := by
  simp [pvcGet, hl]

theorem initLabels_of_some (p : PVC) (l : List (String × String))
    (hl : p.labels = some l) : initLabels p = p := by
  rw [initLabels, hl]

theorem initLabels_get (p : PVC) (k : String) : pvcGet (initLabels p) k = pvcGet p k := by
  cases hl : p.labels with
  | none => simp [initLabels, pvcGet, hl, mapGet, List.find?]
  | some l => rw [initLabels_of_some p l hl]

theorem initLabels_labels (p : PVC) : ∃ l, (initLabels p).labels = some l := by
  cases hl : p.labels with
  | none => exact ⟨[], by simp [initLabels, hl]⟩
  | some l => exact ⟨l, by rw [initLabels_of_some p l hl]; exact hl⟩

theorem initLabels_requests (p : PVC) : (initLabels p).requests = p.requests := by
  cases hl : p.labels with
  | none => simp [initLabels, hl]
  | some l => rw [initLabels_of_some p l hl]

/-- A `setCN` on a claim that already carries every networking property,
the derived subnet and both IP roles is a no-op. -/
theorem setCN_skip (env : Env) (dc : String) (p : PVC) (l : List (String × String))
    (cn : List (String × String)) (sub : String)
    (hl : p.labels = some l) (hd : dc ≠ "")
    (hcn : CN env.conf dc = .ok cn) (hcnne : ∀ d ∈ cn, mapGet l d.1 ≠ "")
    (hncidr : mapGet l cnNetworkCIDRLbl ≠ "")
    (hsub : CIDRSubnet (mapGet l cnNetworkCIDRLbl) = .ok sub)
    (hunif : Unif l cnSubnetLbl sub)
    (hfe : mapGet l ctrlIPLbl ≠ "") (hbe : mapGet l replicaIPsLbl ≠ "") :
    setCN env dc p = .ok p := by
  have hid := mergeDefaults_id cn l hcnne
  have hset := mapSet_of_unif l cnSubnetLbl sub hunif
  simp only [setCN, hl, beq_iff_eq, Bind.bind, Except.bind, Bool.and_eq_true,
    hcn, hid, hsub, hset]
  rw [if_neg hd, if_neg hncidr,
    if_neg (fun hc : mapGet l ctrlIPLbl = "" ∧ mapGet l replicaIPsLbl = "" => hfe hc.1),
    if_neg hfe, if_neg hbe]
  have he : { p with labels := some l } = p := by
    cases p; simp only at hl; rw [hl]
  rw [he]

/-- Decompose a successful resolution run into its stages. -/
theorem provisionResolve_ok (env : Env) (c c' : PVC)
    (h : provisionResolve env c = .ok c') :
    ∃ p2 p3 p4 dc p5 p6,
      verifySpecs (initLabels c) = .ok () ∧
      setJivaLblProps (initLabels c) = .ok p2 ∧
      setJivaSpecProps p2 = .ok p3 ∧
      setRegion env p3 = .ok p4 ∧
      setDC env p4 = .ok (dc, p5) ∧
      setCS env dc p5 = .ok p6 ∧
      setCN env dc p6 = .ok c' := by
  simp only [provisionResolve, Bind.bind, Except.bind] at h
  split at h
  · exact absurd h (by simp)
  · rename_i xv uv hv
    split at h
    · exact absurd h (by simp)
    · rename_i x1 p2 h1
      split at h
      · exact absurd h (by simp)
      · rename_i x2 p3 h2
        split at h
        · exact absurd h (by simp)
        · rename_i x3 p4 h3
          split at h
          · exact absurd h (by simp)
          · rename_i x4 pr h4
            obtain ⟨dc, p5⟩ := pr
            split at h
            · exact absurd h (by simp)
            · rename_i x5 p6 h5
              cases uv
              exact ⟨p2, p3, p4, dc, p5, p6, hv, h1, h2, h3, h4, h5, h⟩

theorem pvcGet_eq_of_labels (p q : PVC) (k : String) (h : p.labels = q.labels) :
    pvcGet p k = pvcGet q k := by
  rw [pvcGet, pvcGet, h]

theorem setJivaLblProps_get_pres (p q : PVC) (h : setJivaLblProps p = .ok q)
    (k : String) (hne : pvcGet p k ≠ "") : pvcGet q k = pvcGet p k := by
  obtain ⟨_, _, l, l2, hl, hl2, _, f⟩ := setJivaLblProps_ok p q h
  rw [pvcGet_of_some p l k hl] at hne ⊢
  rw [pvcGet_of_some q l2 k hl2]
  exact f k hne

theorem setRegion_get_pres (env : Env) (p q : PVC) (h : setRegion env p = .ok q)
    (k : String) (hne : pvcGet p k ≠ "") : pvcGet q k = pvcGet p k := by
  obtain ⟨_, _, l, l2, hl, hl2, _, f⟩ := setRegion_ok env p q h
  rw [pvcGet_of_some p l k hl] at hne ⊢
  rw [pvcGet_of_some q l2 k hl2]
  exact f k hne

theorem setDC_get_pres (env : Env) (p q : PVC) (dc : String)
    (h : setDC env p = .ok (dc, q)) (k : String) (hne : pvcGet p k ≠ "") :
    pvcGet q k = pvcGet p k := by
  obtain ⟨_, _, _, l, l2, hl, hl2, _, f⟩ := setDC_ok env p q dc h
  rw [pvcGet_of_some p l k hl] at hne ⊢
  rw [pvcGet_of_some q l2 k hl2]
  exact f k hne

theorem setCS_get_pres (env : Env) (dc : String) (p q : PVC)
    (h : setCS env dc p = .ok q) (k : String) (hne : pvcGet p k ≠ "") :
    pvcGet q k = pvcGet p k := by
  obtain ⟨_, _, _, l, cs, hl, _, hl2, _, f⟩ := setCS_ok env dc p q h
  rw [pvcGet_of_some p l k hl] at hne ⊢
  rw [pvcGet_of_some q _ k hl2]
  exact f k hne

theorem setCN_get_pres (env : Env) (dc : String) (p q : PVC)
    (h : setCN env dc p = .ok q) (k : String) (hk : k ≠ cnSubnetLbl)
    (hne : pvcGet p k ≠ "") : pvcGet q k = pvcGet p k := by
  obtain ⟨_, _, _, l, cn, sub, lq, hl, _, _, _, hlq, _, _, _, _, f⟩ := setCN_ok env dc p q h
  rw [pvcGet_of_some p l k hl] at hne ⊢
  rw [pvcGet_of_some q lq k hlq]
  exact f k hk hne

/-- Resolution never changes a non-empty property other than the subnet
key. -/
theorem provisionResolve_pres (env : Env) (c c' : PVC)
    (h : provisionResolve env c = .ok c') :
    ∀ k, k ≠ cnSubnetLbl → pvcGet c k ≠ "" → pvcGet c' k = pvcGet c k := by
  obtain ⟨p2, p3, p4, dc, p5, p6, hv, h1, h2, h3, h4, h5, h6⟩ :=
    provisionResolve_ok env c c' h
  intro k hk hne
  have g0 : pvcGet (initLabels c) k = pvcGet c k := initLabels_get c k
  have hne0 : pvcGet (initLabels c) k ≠ "" := by rw [g0]; exact hne
  have g1 := setJivaLblProps_get_pres _ _ h1 k hne0
  have hne1 : pvcGet p2 k ≠ "" := by rw [g1]; exact hne0
  obtain ⟨_, hlab2, _⟩ := setJivaSpecProps_ok _ _ h2
  have g2 : pvcGet p3 k = pvcGet p2 k := pvcGet_eq_of_labels _ _ k hlab2
  have hne2 : pvcGet p3 k ≠ "" := by rw [g2]; exact hne1
  have g3 := setRegion_get_pres env _ _ h3 k hne2
  have hne3 : pvcGet p4 k ≠ "" := by rw [g3]; exact hne2
  have g4 := setDC_get_pres env _ _ dc h4 k hne3
  have hne4 : pvcGet p5 k ≠ "" := by rw [g4]; exact hne3
  have g5 := setCS_get_pres env dc _ _ h5 k hne4
  have hne5 : pvcGet p6 k ≠ "" := by rw [g5]; exact hne4
  have g6 := setCN_get_pres env dc _ _ h6 k hk hne5
  rw [g6, g5, g4, g3, g2, g1, g0]

/-- Running the resolution-and-allocation pipeline on one of its own
outputs whose backend IP list is set is a no-op: it succeeds and returns
the claim unchanged. -/
theorem provisionResolve_idem (env : Env) (c c' : PVC)
    (h : provisionResolve env c = .ok c') (hbe : pvcGet c' replicaIPsLbl ≠ "") :
    provisionResolve env c' = .ok c' := by
  obtain ⟨p2, p3, p4, dc, p5, p6, hv, h1, h2, h3, h4, h5, h6⟩ :=
    provisionResolve_ok env c c' h
  obtain ⟨hn6, hr6, hdne, l9, cn, sub, lq, hl9, hcn, hncidr9, hsub9, hlq, hunif,
    hncidr_eq, hfe, hcnvals, f6⟩ := setCN_ok env dc p6 c' h6
  -- value-preservation chains from intermediate stages to the final claim
  have chain6 : ∀ k, k ≠ cnSubnetLbl → pvcGet p6 k ≠ "" → pvcGet c' k = pvcGet p6 k :=
    fun k hk hne => setCN_get_pres env dc _ _ h6 k hk hne
  have chain5 : ∀ k, k ≠ cnSubnetLbl → pvcGet p5 k ≠ "" → pvcGet c' k = pvcGet p5 k := by
    intro k hk hne
    have g := setCS_get_pres env dc _ _ h5 k hne
    exact (chain6 k hk (by rw [g]; exact hne)).trans g
  have chain4 : ∀ k, k ≠ cnSubnetLbl → pvcGet p4 k ≠ "" → pvcGet c' k = pvcGet p4 k := by
    intro k hk hne
    have g := setDC_get_pres env _ _ dc h4 k hne
    exact (chain5 k hk (by rw [g]; exact hne)).trans g
  have chain3 : ∀ k, k ≠ cnSubnetLbl → pvcGet p3 k ≠ "" → pvcGet c' k = pvcGet p3 k := by
    intro k hk hne
    have g := setRegion_get_pres env _ _ h3 k hne
    exact (chain4 k hk (by rw [g]; exact hne)).trans g
  have chain2 : ∀ k, k ≠ cnSubnetLbl → pvcGet p2 k ≠ "" → pvcGet c' k = pvcGet p2 k := by
    intro k hk hne
    obtain ⟨_, hlab2, _⟩ := setJivaSpecProps_ok _ _ h2
    have g : pvcGet p3 k = pvcGet p2 k := pvcGet_eq_of_labels _ _ k hlab2
    exact (chain3 k hk (by rw [g]; exact hne)).trans g
  -- the controller image is set on the final claim
  have hci : pvcGet c' ctrlImageLbl ≠ "" := by
    obtain ⟨_, _, l1, l2, hl1, hl2, hcine, _⟩ := setJivaLblProps_ok _ _ h1
    have hp2 : pvcGet p2 ctrlImageLbl ≠ "" := by
      rw [pvcGet_of_some _ _ _ hl2]; exact hcine
    rw [chain2 _ (by decide) hp2]; exact hp2
  -- the region is set on the final claim
  have hreg : pvcGet c' regionLbl ≠ "" := by
    obtain ⟨_, _, l3, l4, hl3, hl4, hregne, _⟩ := setRegion_ok env _ _ h3
    have hp4 : pvcGet p4 regionLbl ≠ "" := by
      rw [pvcGet_of_some _ _ _ hl4]; exact hregne
    rw [chain4 _ (by decide) hp4]; exact hp4
  -- the datacenter key of the final claim carries the datacenter used
  have hdcv : pvcGet c' dcLbl = dc := by
    obtain ⟨_, _, _, l5, l6, hl5, hl6, hdcval, _⟩ := setDC_ok env _ _ dc h4
    have hp5 : pvcGet p5 dcLbl = dc := by
      rw [pvcGet_of_some _ _ _ hl6]; exact hdcval
    rw [chain5 _ (by decide) (by rw [hp5]; exact hdne)]; exact hp5
  -- every storage-default key is set on the final claim
  obtain ⟨_, _, _, l7, cs, hl7, hcs, hl8, hcsne, _⟩ := setCS_ok env dc _ _ h5
  have hcsne' : ∀ d ∈ cs, pvcGet c' d.1 ≠ "" := by
    intro d hd
    have hp6 : pvcGet p6 d.1 ≠ "" := by
      rw [pvcGet_of_some _ _ _ hl8]; exact hcsne d hd
    have hkd : d.1 ≠ cnSubnetLbl := by
      rcases CS_keys env.conf dc cs hcs d hd with hk | hk <;> rw [hk] <;> decide
    rw [chain6 _ hkd hp6]; exact hp6
  -- the final requests carry positive frontend/backend volume sizes
  obtain ⟨_, _, m, m2, hm, hm2, hfpos, hbpos⟩ := setJivaSpecProps_ok _ _ h2
  have hreq : c'.requests = some m2 := by
    have e3 := (setRegion_ok env _ _ h3).2.1
    have e4 := (setDC_ok env _ _ dc h4).2.1
    have e5 := (setCS_ok env dc _ _ h5).2.1
    rw [hr6, e5, e4, e3, hm2]
  -- facts about the final label map
  have hncidr' : mapGet lq cnNetworkCIDRLbl ≠ "" := by
    rw [hncidr_eq]; exact hncidr9
  have hsub' : CIDRSubnet (mapGet lq cnNetworkCIDRLbl) = .ok sub := by
    rw [hncidr_eq]; exact hsub9
  -- now run the pipeline a second time; every stage skips
  have hinit : initLabels c' = c' := initLabels_of_some _ _ hlq
  have hv2 : verifySpecs c' = .ok () := by rw [verifySpecs, hreq]
  have s1 : setJivaLblProps c' = .ok c' := by
    refine setJivaLblProps_skip c' lq hlq ?_
    rw [← pvcGet_of_some c' lq _ hlq]; exact hci
  have s2 : setJivaSpecProps c' = .ok c' := setJivaSpecProps_skip c' m2 hreq hfpos hbpos
  have s3 : setRegion env c' = .ok c' := by
    refine setRegion_skip env c' lq hlq ?_
    rw [← pvcGet_of_some c' lq _ hlq]; exact hreg
  have s4 : setDC env c' = .ok (dc, c') := by
    have := setDC_skip env c' lq hlq (by rw [← pvcGet_of_some c' lq _ hlq, hdcv]; exact hdne)
    rw [← pvcGet_of_some c' lq _ hlq, hdcv] at this
    exact this
  have s5 : setCS env dc c' = .ok c' := by
    refine setCS_skip env dc c' lq cs hlq hdne hcs ?_
    intro d hd
    rw [← pvcGet_of_some c' lq _ hlq]
    exact hcsne' d hd
  have s6 : setCN env dc c' = .ok c' := by
    refine setCN_skip env dc c' lq cn sub hlq hdne hcn ?_ hncidr' hsub' hunif hfe ?_
    · intro d hd
      exact hcnvals d hd
    · rw [← pvcGet_of_some c' lq _ hlq]; exact hbe
  simp only [provisionResolve, Bind.bind, Except.bind, hinit, hv2, s1, s2, s3, s4, s5, s6]

/-! ## Round trip between dotted-quad rendering and parsing -/

set_option maxRecDepth 4096 in
theorem parseOctet_natToStr :
    ∀ k : Fin 256, parseOctet (natToStr k.val).data = some k.val := by decide

set_option maxRecDepth 4096 in
theorem natToStr_octet_no_dot : ∀ k : Fin 256, '.' ∉ (natToStr k.val).data := by decide

theorem splitChar_sep_free (sep : Char) (xs : List Char) (h : sep ∉ xs) :
    splitChar sep xs = [xs] := by
  induction xs with
  | nil => rfl
  | cons c rest ih =>
    rw [splitChar]
    have hc : ¬ c = sep := fun he => h (he ▸ List.mem_cons_self c rest)
    rw [if_neg hc, ih (fun hm => h (List.mem_cons_of_mem c hm))]

theorem splitChar_append (sep : Char) (xs rest : List Char) (h : sep ∉ xs) :
    splitChar sep (xs ++ sep :: rest) = xs :: splitChar sep rest := by
  induction xs with
  | nil =>
    rw [List.nil_append, splitChar, if_pos rfl]
  | cons c xs2 ih =>
    have hc : ¬ c = sep := fun he => h (he ▸ List.mem_cons_self c xs2)
    rw [List.cons_append, splitChar, if_neg hc,
      ih (fun hm => h (List.mem_cons_of_mem c hm))]

theorem parseOctet_lt (cs : List Char) (n : Nat) (h : parseOctet cs = some n) :
    n < 256 := by
  rw [parseOctet] at h
  split at h
  · rename_i m hm
    by_cases hlt : m < 256
    · rw [if_pos hlt] at h; injection h with h; rw [← h]; exact hlt
    · rw [if_neg hlt] at h; exact absurd h (by simp)
  · exact absurd h (by simp)

theorem parseIPv4_lt (cs : List Char) (n : Nat) (h : parseIPv4 cs = some n) :
    n < 4294967296 := by
  rw [parseIPv4] at h
  split at h
  · rename_i a b c d heq0
    split at h
    · rename_i x y z w hx hy hz hw
      injection h with h
      have hx2 := parseOctet_lt a x hx
      have hy2 := parseOctet_lt b y hy
      have hz2 := parseOctet_lt c z hz
      have hw2 := parseOctet_lt d w hw
      omega
    · exact absurd h (by simp)
  · exact absurd h (by simp)

theorem parseCIDR_bounds (s : String) (ip pfx : Nat)
    (h : parseCIDR s = some (ip, pfx)) : ip < 4294967296 ∧ pfx ≤ 32 := by
  rw [parseCIDR] at h
  split at h
  · rename_i ipPart pfxPart heq0
    split at h
    · rename_i a b ha hb
      by_cases hp : b ≤ 32
      · rw [if_pos hp] at h
        injection h with h
        injection h with h1 h2
        rw [← h1, ← h2]
        exact ⟨parseIPv4_lt ipPart a ha, hp⟩
      · rw [if_neg hp] at h; exact absurd h (by simp)
    · exact absurd h (by simp)
  · exact absurd h (by simp)

theorem ipToString_data (n : Nat) :
    (ipToString n).data =
      (natToStr (n / 16777216 % 256)).data ++ '.' ::
        ((natToStr (n / 65536 % 256)).data ++ '.' ::
          ((natToStr (n / 256 % 256)).data ++ '.' :: (natToStr (n % 256)).data)) := by
  rw [ipToString]
  simp only [String.data_append]
  simp [List.append_assoc]

theorem parseIPv4_ipToString (n : Nat) (h : n < 4294967296) :
    parseIPv4 (ipToString n).data = some n := by
  have ha : n / 16777216 % 256 < 256 := Nat.mod_lt _ (by decide)
  have hb : n / 65536 % 256 < 256 := Nat.mod_lt _ (by decide)
  have hc : n / 256 % 256 < 256 := Nat.mod_lt _ (by decide)
  have hd : n % 256 < 256 := Nat.mod_lt _ (by decide)
  rw [parseIPv4, ipToString_data,
    splitChar_append '.' _ _ (natToStr_octet_no_dot ⟨_, ha⟩),
    splitChar_append '.' _ _ (natToStr_octet_no_dot ⟨_, hb⟩),
    splitChar_append '.' _ _ (natToStr_octet_no_dot ⟨_, hc⟩),
    splitChar_sep_free '.' _ (natToStr_octet_no_dot ⟨_, hd⟩)]
  simp only [parseOctet_natToStr ⟨_, ha⟩, parseOctet_natToStr ⟨_, hb⟩,
    parseOctet_natToStr ⟨_, hc⟩, parseOctet_natToStr ⟨_, hd⟩]
  congr 1
  omega

theorem ipToString_inj (a b : Nat) (ha : a < 4294967296) (hb : b < 4294967296)
    (h : ipToString a = ipToString b) : a = b := by
  have h1 := parseIPv4_ipToString a ha
  have h2 := parseIPv4_ipToString b hb
  rw [congrArg String.data h, h2] at h1
  injection h1 with h1
  exact h1.symm

theorem subnetBase_add_le (ip pfx : Nat) (hip : ip < 4294967296) (hpfx : pfx ≤ 32) :
    subnetBase ip pfx + 2 ^ (32 - pfx) ≤ 4294967296 := by
  have hE : 0 < 2 ^ (32 - pfx) := Nat.pos_pow_of_pos _ (by decide)
  have hbase : subnetBase ip pfx = 2 ^ (32 - pfx) * (ip / 2 ^ (32 - pfx)) := by
    have hdm := Nat.div_add_mod ip (2 ^ (32 - pfx))
    rw [subnetBase]
    omega
  have hpow : 2 ^ (32 - pfx) * 2 ^ pfx = 4294967296 := by
    rw [← pow_add]
    have h32 : 32 - pfx + pfx = 32 := by omega
    rw [h32]
    decide
  have hdiv : ip / 2 ^ (32 - pfx) < 2 ^ pfx := by
    rw [Nat.div_lt_iff_lt_mul hE]
    rw [mul_comm] at hpow
    rw [hpow]
    exact hip
  calc subnetBase ip pfx + 2 ^ (32 - pfx)
      = 2 ^ (32 - pfx) * (ip / 2 ^ (32 - pfx) + 1) := by rw [hbase, Nat.mul_add, Nat.mul_one]
    _ ≤ 2 ^ (32 - pfx) * 2 ^ pfx := Nat.mul_le_mul_left _ hdiv
    _ = 4294967296 := hpow

theorem availableNats_lt (ip pfx k : Nat) (hip : ip < 4294967296) (hpfx : pfx ≤ 32)
    (hk : k ≤ hostCount pfx) : ∀ a ∈ availableNats ip pfx k, a < 4294967296 := by
  intro a ha
  rw [availableNats] at ha
  have hm := List.mem_range'_1.mp ha
  have hle := subnetBase_add_le ip pfx hip hpfx
  rw [hostCount] at hk
  omega

/-! ## Claim theorems -/

/-- C7: for every non-nil evaluation record, the reconciled volume status
takes its message from the evaluation's status description and its reason
from the evaluation's status, and its annotations stringify the
priority, type, trigger, job id, status, status description and
blocked-evaluation reference. -/
theorem C7_eval_to_volume_status (jobName : String) (e : Evaluation) :
    ∃ pv, JobEvalToPv jobName (some e) = .ok pv ∧
      pv.name = jobName ∧
      pv.status.message = e.statusDescription ∧
      pv.status.reason = e.status ∧
      ∃ ann, pv.annotations = some ann ∧
        mapGet ann "evalpriority" = intToStr e.priority ∧
        mapGet ann "evaltype" = e.evalType ∧
        mapGet ann "evaltrigger" = e.triggeredBy ∧
        mapGet ann "evaljob" = e.jobID ∧
        mapGet ann "evalstatus" = e.status ∧
        mapGet ann "evalstatusdesc" = e.statusDescription ∧
        mapGet ann "evalblockedeval" = e.blockedEval := by
  refine ⟨_, rfl, rfl, rfl, rfl, _, rfl, ?_, ?_, ?_, ?_, ?_, ?_, ?_⟩ <;>
    simp [mapGet, List.find?]

/-- C8: a topology record with its pointer fields set reconciles to a
status whose message and reason come from the job's own status fields,
and whose annotations are the job's metadata map exactly when the job
status is the running state. -/
theorem C8_running_metadata_annotations (j : Job) (nm sd st : String)
    (hn : j.name = some nm) (hsd : j.statusDescription = some sd)
    (hst : j.status = some st) :
    ∃ pv, JobToPv (some j) = some (.ok pv) ∧
      pv.name = nm ∧
      pv.status.message = sd ∧
      pv.status.reason = st ∧
      (pv.annotations = some j.meta ↔ st = JobStatusRunning) := by
  rw [JobToPv, hn, hsd, hst]
  refine ⟨_, rfl, rfl, rfl, rfl, ?_⟩
  by_cases hr : st = JobStatusRunning
  · have hb : (st == JobStatusRunning) = true := by simp [hr]
    simp [hb, hr]
  · have hb : (st == JobStatusRunning) = false := by simp [hr]
    simp only [hb, Bool.false_eq_true, if_false]
    constructor
    · intro he; exact absurd he (by simp)
    · intro he; exact absurd he hr

/-- C8 witness: a concrete running job surfaces its metadata. -/
theorem C8_running_metadata_annotations_witness :
    ∃ pv, JobToPv (some
        { region := none, name := some "vol1", id := some "vol1", datacenters := []
          jobType := none, priority := 0, constraints := []
          meta := [("backendIP0", "10.0.0.2")], taskGroups := []
          status := some "running", statusDescription := some "ok" }) = some (.ok pv) ∧
      pv.name = "vol1" ∧
      pv.status.message = "ok" ∧
      pv.status.reason = "running" ∧
      (pv.annotations = some [("backendIP0", "10.0.0.2")] ↔ "running" = JobStatusRunning) :=
  C8_running_metadata_annotations _ "vol1" "ok" "running" rfl rfl rfl

/-- C10: the topology-to-status transformation only guards against a nil
topology: a non-nil job with an unset status or status-description
pointer dereferences nil (embedded as the `none` outcome), and the error
outcome arises only for the nil job. -/
theorem C10_jobToPv_nil_guard :
    (∀ j : Job, j.status = none ∨ j.statusDescription = none →
      JobToPv (some j) = none) ∧
    (∀ (oj : Option Job) (e : Err), JobToPv oj = some (.error e) → oj = none) := by
  constructor
  · intro j hj
    rw [JobToPv]
    cases hn : j.name with
    | none => rfl
    | some nm =>
      cases hsd : j.statusDescription with
      | none => rfl
      | some sd =>
        cases hst : j.status with
        | none => rfl
        | some st =>
          rcases hj with hj | hj
          · rw [hj] at hst; exact absurd hst (by simp)
          · rw [hj] at hsd; exact absurd hsd (by simp)
  · intro oj e h
    cases oj with
    | none => rfl
    | some j =>
      rw [JobToPv] at h
      cases hn : j.name with
      | none => rw [hn] at h; exact absurd h (by simp)
      | some nm =>
        rw [hn] at h
        cases hsd : j.statusDescription with
        | none => rw [hsd] at h; exact absurd h (by simp)
        | some sd =>
          rw [hsd] at h
          cases hst : j.status with
          | none => rw [hst] at h; exact absurd h (by simp)
          | some st => rw [hst] at h; exact absurd h (by simp)

/-- C10 witness: a job with a nil status pointer panics, and the nil-job
error branch. -/
theorem C10_jobToPv_nil_guard_witness :
    JobToPv (some
      { region := none, name := some "vol1", id := some "vol1", datacenters := []
        jobType := none, priority := 0, constraints := [], meta := []
        taskGroups := [], status := none, statusDescription := some "ok" }) = none ∧
    (none : Option Job) = none :=
  ⟨C10_jobToPv_nil_guard.1 _ (Or.inl rfl),
   C10_jobToPv_nil_guard.2 none .nilJob rfl⟩

/-- C6: when a required property is absent, topology construction fails
with an error naming the first absent key in the fixed check order, and
no topology is built. -/
theorem C6_first_missing_property_error (p : PVC) (l : List (String × String))
    (k : String) (hn : ¬ p.name = "") (hl : p.labels = some l)
    (hfind : requiredFirstEmpty l = some k) :
    PvcToJob (some p) = .error (.missingProperty k) := by
  simp only [PvcToJob, hl, beq_iff_eq]
  rw [if_neg hn]
  simp only [requiredFirstEmpty, requiredKeys, List.find?] at hfind
  by_cases h1 : mapGet l regionLbl = ""
  · have hb1 : (mapGet l regionLbl == "") = true := by simp [h1]
    simp only [hb1] at hfind
    injection hfind with hfind
    rw [if_pos h1, ← hfind]
  · have hb1 : (mapGet l regionLbl == "") = false := by simp [h1]
    simp only [hb1, Bool.false_eq_true] at hfind
    rw [if_neg h1]
    by_cases h2 : mapGet l dcLbl = ""
    · have hb2 : (mapGet l dcLbl == "") = true := by simp [h2]
      simp only [hb2] at hfind
      injection hfind with hfind
      rw [if_pos h2, ← hfind]
    · have hb2 : (mapGet l dcLbl == "") = false := by simp [h2]
      simp only [hb2, Bool.false_eq_true] at hfind
      rw [if_neg h2]
      by_cases h3 : mapGet l ctrlImageLbl = ""
      · have hb3 : (mapGet l ctrlImageLbl == "") = true := by simp [h3]
        simp only [hb3] at hfind
        injection hfind with hfind
        rw [if_pos h3, ← hfind]
      · have hb3 : (mapGet l ctrlImageLbl == "") = false := by simp [h3]
        simp only [hb3, Bool.false_eq_true] at hfind
        rw [if_neg h3]
        by_cases h4 : mapGet l ctrlIPLbl = ""
        · have hb4 : (mapGet l ctrlIPLbl == "") = true := by simp [h4]
          simp only [hb4] at hfind
          injection hfind with hfind
          rw [if_pos h4, ← hfind]
        · have hb4 : (mapGet l ctrlIPLbl == "") = false := by simp [h4]
          simp only [hb4, Bool.false_eq_true] at hfind
          rw [if_neg h4]
          by_cases h5 : mapGet l replicaIPsLbl = ""
          · have hb5 : (mapGet l replicaIPsLbl == "") = true := by simp [h5]
            simp only [hb5] at hfind
            injection hfind with hfind
            rw [if_pos h5, ← hfind]
          · have hb5 : (mapGet l replicaIPsLbl == "") = false := by simp [h5]
            simp only [hb5, Bool.false_eq_true] at hfind
            rw [if_neg h5]
            by_cases h6 : mapGet l cnTypeLbl = ""
            · have hb6 : (mapGet l cnTypeLbl == "") = true := by simp [h6]
              simp only [hb6] at hfind
              injection hfind with hfind
              rw [if_pos h6, ← hfind]
            · have hb6 : (mapGet l cnTypeLbl == "") = false := by simp [h6]
              simp only [hb6, Bool.false_eq_true] at hfind
              rw [if_neg h6]
              by_cases h7 : mapGet l cnSubnetLbl = ""
              · have hb7 : (mapGet l cnSubnetLbl == "") = true := by simp [h7]
                simp only [hb7] at hfind
                injection hfind with hfind
                rw [if_pos h7, ← hfind]
              · have hb7 : (mapGet l cnSubnetLbl == "") = false := by simp [h7]
                simp only [hb7, Bool.false_eq_true] at hfind
                rw [if_neg h7]
                by_cases h8 : mapGet l cnInterfaceLbl = ""
                · have hb8 : (mapGet l cnInterfaceLbl == "") = true := by simp [h8]
                  simp only [hb8] at hfind
                  injection hfind with hfind
                  rw [if_pos h8, ← hfind]
                · have hb8 : (mapGet l cnInterfaceLbl == "") = false := by simp [h8]
                  simp only [hb8, Bool.false_eq_true] at hfind
                  rw [if_neg h8]
                  by_cases h9 : mapGet l persistLocLbl = ""
                  · have hb9 : (mapGet l persistLocLbl == "") = true := by simp [h9]
                    simp only [hb9] at hfind
                    injection hfind with hfind
                    rw [if_pos h9, ← hfind]
                  · have hb9 : (mapGet l persistLocLbl == "") = false := by simp [h9]
                    simp only [hb9, Bool.false_eq_true] at hfind
                    rw [if_neg h9]
                    by_cases h10 : mapGet l storageSizeLbl = ""
                    · have hb10 : (mapGet l storageSizeLbl == "") = true := by simp [h10]
                      simp only [hb10] at hfind
                      injection hfind with hfind
                      rw [if_pos h10, ← hfind]
                    · have hb10 : (mapGet l storageSizeLbl == "") = false := by simp [h10]
                      simp only [hb10, Bool.false_eq_true] at hfind
                      rw [if_neg h10]
                      exact absurd hfind (by simp)

/-- C6 witness: a claim missing the controller image fails naming it. -/
theorem C6_first_missing_property_error_witness :
    requiredFirstEmpty [(regionLbl, "global"), (dcLbl, "dc1")] = some ctrlImageLbl ∧
    PvcToJob (some ⟨"vol1", some [(regionLbl, "global"), (dcLbl, "dc1")], none⟩) =
      .error (.missingProperty ctrlImageLbl) :=
  ⟨by decide,
   C6_first_missing_property_error _ [(regionLbl, "global"), (dcLbl, "dc1")]
     ctrlImageLbl (by decide) rfl (by decide)⟩

/-- C5: a fully-resolved claim with replica count 2 and two replica IPs
builds a topology with a frontend group of count 1 and no constraints, a
backend group of count 2 carrying the distinct-hosts constraint, and one
backend-IP metadata entry per replica ordinal. -/
theorem C5_topology_two_replicas (p : PVC) (l : List (String × String)) (a b : String)
    (hn : ¬ p.name = "") (hl : p.labels = some l)
    (hreq : ∀ k ∈ requiredKeys, mapGet l k ≠ "")
    (hrc : atoi (mapGet l replicaCountLbl) = some 2)
    (hsplit : splitComma (mapGet l replicaIPsLbl) = [a, b]) :
    ∃ job feg beg, PvcToJob (some p) = .ok job ∧
      job.taskGroups = [feg, beg] ∧
      feg.count = 1 ∧ feg.constraints = [] ∧
      beg.count = 2 ∧ beg.constraints = [⟨"", "distinct_hosts", "true"⟩] ∧
      mapGet job.meta (beIPOrdinalLbl ++ natToStr 0) = a ∧
      mapGet job.meta (beIPOrdinalLbl ++ natToStr 1) = b ∧
      mapGet job.meta replicaCountLbl = intToStr 2 := by
  simp only [PvcToJob, hl, beq_iff_eq, hrc, hsplit]
  rw [if_neg hn, if_neg (hreq regionLbl (by decide)), if_neg (hreq dcLbl (by decide)),
    if_neg (hreq ctrlImageLbl (by decide)), if_neg (hreq ctrlIPLbl (by decide)),
    if_neg (hreq replicaIPsLbl (by decide)), if_neg (hreq cnTypeLbl (by decide)),
    if_neg (hreq cnSubnetLbl (by decide)), if_neg (hreq cnInterfaceLbl (by decide)),
    if_neg (hreq persistLocLbl (by decide)), if_neg (hreq storageSizeLbl (by decide))]
  simp only [setBEIPs]
  rw [if_neg (by decide : ¬ (2 : Int) = 0),
    if_neg (show ¬ (([a, b].length : Int) ≠ (2 : Int)) by simp)]
  have hrange : List.range (2 : Int).toNat = [0, 1] := rfl
  rw [hrange]
  simp only [List.foldl_cons, List.foldl_nil, List.getD_cons_zero, List.getD_cons_succ]
  refine ⟨_, _, _, rfl, rfl, rfl, rfl, rfl, rfl, ?_, ?_, ?_⟩
  · rw [mapGet_mapSet_ne _ _ _ _ (by decide), mapGet_mapSet_self]
  · rw [mapGet_mapSet_self]
  · rw [mapGet_mapSet_ne _ _ _ _ (by decide), mapGet_mapSet_ne _ _ _ _ (by decide),
      mapGet_mapSet_self]

/-- C5 witness: a concrete fully-resolved claim with two replicas. -/
theorem C5_topology_two_replicas_witness :
    ∃ job feg beg,
      PvcToJob (some ⟨"vol1", some
        [(regionLbl, "global"), (dcLbl, "dc1"), (ctrlImageLbl, "openebs/jiva:latest"),
         (ctrlIPLbl, "10.0.0.1"), (replicaIPsLbl, "10.0.0.5,10.0.0.6"),
         (cnTypeLbl, "host"), (cnSubnetLbl, "10.0.0.0/24"), (cnInterfaceLbl, "eth0"),
         (persistLocLbl, "/tmp/"), (storageSizeLbl, "5Gi"), (replicaCountLbl, "2")],
        none⟩) = .ok job ∧
      job.taskGroups = [feg, beg] ∧
      feg.count = 1 ∧ feg.constraints = [] ∧
      beg.count = 2 ∧ beg.constraints = [⟨"", "distinct_hosts", "true"⟩] ∧
      mapGet job.meta (beIPOrdinalLbl ++ natToStr 0) = "10.0.0.5" ∧
      mapGet job.meta (beIPOrdinalLbl ++ natToStr 1) = "10.0.0.6" ∧
      mapGet job.meta replicaCountLbl = intToStr 2 :=
  C5_topology_two_replicas _ _ "10.0.0.5" "10.0.0.6" (by decide) rfl
    (by decide) (by decide) (by decide)

/-- C3: on a resolved claim with replica count `r` and neither IP role
set, `setCN` draws `r + 1` distinct addresses in ascending order from the
usable host range of the subnet (network and broadcast excluded); the
first becomes the frontend IP and the remaining `r`, in order, become the
comma-joined backend IP list. -/
theorem C3_allocates_replica_plus_one (env : Env) (dc : String) (p : PVC)
    (l cn : List (String × String)) (ip pfx r : Nat)
    (hl : p.labels = some l) (hd : dc ≠ "")
    (hcn : CN env.conf dc = .ok cn)
    (hncidr : mapGet (mergeDefaults l cn) cnNetworkCIDRLbl ≠ "")
    (hparse : parseCIDR (mapGet (mergeDefaults l cn) cnNetworkCIDRLbl) = some (ip, pfx))
    (hfe : mapGet l ctrlIPLbl = "") (hbe : mapGet l replicaIPsLbl = "")
    (hrc : atoi (mapGet l replicaCountLbl) = some (r : Int))
    (hr : 0 < r) (hcap : 1 + r ≤ hostCount pfx) :
    ∃ q ips nats, setCN env dc p = .ok q ∧
      nats = availableNats ip pfx (1 + r) ∧
      ips = nats.map ipToString ∧
      GetAvailableIPs (mapGet (mergeDefaults l cn) cnNetworkCIDRLbl) (1 + (r : Int)) =
        .ok ips ∧
      nats.length = r + 1 ∧
      nats.Nodup ∧
      ips.Nodup ∧
      (∀ a ∈ nats, subnetBase ip pfx < a ∧ a < subnetBase ip pfx + 2 ^ (32 - pfx) - 1) ∧
      ips.headD "" = ipToString (subnetBase ip pfx + 1) ∧
      pvcGet q ctrlIPLbl = ips.headD "" ∧
      pvcGet q replicaIPsLbl = joinTrim (ips.drop 1) ∧
      (ips.drop 1).length = r := by
  have hkeys := CN_keys env.conf dc cn hcn
  have hnofe : ∀ d ∈ cn, d.1 ≠ ctrlIPLbl := by
    intro d hd2; rcases hkeys d hd2 with h | h | h <;> rw [h] <;> decide
  have hnobe : ∀ d ∈ cn, d.1 ≠ replicaIPsLbl := by
    intro d hd2; rcases hkeys d hd2 with h | h | h <;> rw [h] <;> decide
  have hnorc : ∀ d ∈ cn, d.1 ≠ replicaCountLbl := by
    intro d hd2; rcases hkeys d hd2 with h | h | h <;> rw [h] <;> decide
  have hsubeq : CIDRSubnet (mapGet (mergeDefaults l cn) cnNetworkCIDRLbl) =
      .ok (ipToString (subnetBase ip pfx) ++ "/" ++ natToStr pfx) := by
    rw [CIDRSubnet, hparse]
  have hfe2 : mapGet (mapSet (mergeDefaults l cn) cnSubnetLbl (ipToString (subnetBase ip pfx) ++ "/" ++ natToStr pfx)) ctrlIPLbl = "" := by
    rw [mapGet_mapSet_ne _ _ _ _ (by decide), mergeDefaults_get_of_keys_ne cn l _ hnofe]
    exact hfe
  have hbe2 : mapGet (mapSet (mergeDefaults l cn) cnSubnetLbl (ipToString (subnetBase ip pfx) ++ "/" ++ natToStr pfx)) replicaIPsLbl = "" := by
    rw [mapGet_mapSet_ne _ _ _ _ (by decide), mergeDefaults_get_of_keys_ne cn l _ hnobe]
    exact hbe
  have hrc2 : atoi (pvcGet ({ p with labels := some (mapSet (mergeDefaults l cn) cnSubnetLbl (ipToString (subnetBase ip pfx) ++ "/" ++ natToStr pfx)) } : PVC) replicaCountLbl) =
      some (r : Int) := by
    rw [pvcGet_of_some _ _ _ rfl, mapGet_mapSet_ne _ _ _ _ (by decide),
      mergeDefaults_get_of_keys_ne cn l _ hnorc]
    exact hrc
  have hgb := getBackendCount_of _ _ hrc2
  have htn : (1 + (r : Int)).toNat = 1 + r := by omega
  have hips : GetAvailableIPs (mapGet (mergeDefaults l cn) cnNetworkCIDRLbl)
      (1 + (r : Int)) = .ok ((availableNats ip pfx (1 + r)).map ipToString) := by
    have := GetAvailableIPs_ok_intro (mapGet (mergeDefaults l cn) cnNetworkCIDRLbl)
      (1 + (r : Int)) ip pfx hparse (by omega) (by rw [htn]; exact hcap)
    rw [htn] at this
    exact this
  have hrun : setCN env dc p = .ok { p with labels := some (mapSet (mapSet (mapSet (mergeDefaults l cn) cnSubnetLbl (ipToString (subnetBase ip pfx) ++ "/" ++ natToStr pfx)) ctrlIPLbl (((availableNats ip pfx (1 + r)).map ipToString).headD "")) replicaIPsLbl (joinTrim (((availableNats ip pfx (1 + r)).map ipToString).drop 1))) } := by
    simp only [setCN, hl, beq_iff_eq, Bind.bind, Except.bind, Bool.and_eq_true,
      hcn, hsubeq, hgb, hips]
    rw [if_neg hd, if_neg hncidr, if_pos (⟨hfe2, hbe2⟩ : _ ∧ _)]
    rw [setBackendIPsAsString_of_some _ _ (mapSet (mapSet (mergeDefaults l cn) cnSubnetLbl (ipToString (subnetBase ip pfx) ++ "/" ++ natToStr pfx)) ctrlIPLbl (((availableNats ip pfx (1 + r)).map ipToString).headD "")) rfl]
  refine ⟨_, ((availableNats ip pfx (1 + r)).map ipToString), (availableNats ip pfx (1 + r)), hrun, rfl, rfl, hips, ?_, ?_, ?_, ?_, ?_, ?_, ?_, ?_⟩
  · rw [availableNats, List.length_range']
    omega
  · exact List.nodup_range' _ _
  · obtain ⟨hip32, hpfx32⟩ := parseCIDR_bounds _ ip pfx hparse
    exact List.Nodup.map_on
      (fun x hx y hy he => ipToString_inj x y
        (availableNats_lt ip pfx (1 + r) hip32 hpfx32 hcap x hx)
        (availableNats_lt ip pfx (1 + r) hip32 hpfx32 hcap y hy) he)
      (List.nodup_range' _ _)
  · intro a ha
    rw [availableNats] at ha
    have hm := List.mem_range'_1.mp ha
    rw [hostCount] at hcap
    omega
  · rw [availableNats, Nat.add_comm 1 r, List.range'_succ, List.map_cons, List.headD_cons]
  · rw [pvcGet_of_some _ _ _ rfl, mapGet_mapSet_ne _ _ _ _ (by decide), mapGet_mapSet_self]
  · rw [pvcGet_of_some _ _ _ rfl, mapGet_mapSet_self]
  · rw [List.length_drop, List.length_map, availableNats, List.length_range']
    omega

/-- C4: re-invoking allocation on a claim with a frontend IP but no
backend list allocates exactly `r` backend addresses and leaves the
frontend IP unchanged; symmetrically, a claim with backend IPs but no
frontend IP gets exactly one frontend address and keeps its backend
list. -/
theorem C4_partial_allocation_fills_missing_role :
    (∀ (env : Env) (dc : String) (p : PVC) (l cn : List (String × String))
      (ip pfx r : Nat),
      p.labels = some l → dc ≠ "" → CN env.conf dc = .ok cn →
      mapGet (mergeDefaults l cn) cnNetworkCIDRLbl ≠ "" →
      parseCIDR (mapGet (mergeDefaults l cn) cnNetworkCIDRLbl) = some (ip, pfx) →
      mapGet l ctrlIPLbl ≠ "" → mapGet l replicaIPsLbl = "" →
      atoi (mapGet l replicaCountLbl) = some (r : Int) → 0 < r → r ≤ hostCount pfx →
      ∃ q ips, setCN env dc p = .ok q ∧
        GetAvailableIPs (mapGet (mergeDefaults l cn) cnNetworkCIDRLbl) (r : Int) =
          .ok ips ∧
        ips.length = r ∧
        ips.Nodup ∧
        pvcGet q ctrlIPLbl = mapGet l ctrlIPLbl ∧
        pvcGet q replicaIPsLbl = joinTrim ips) ∧
    (∀ (env : Env) (dc : String) (p : PVC) (l cn : List (String × String)) (ip pfx : Nat),
      p.labels = some l → dc ≠ "" → CN env.conf dc = .ok cn →
      mapGet (mergeDefaults l cn) cnNetworkCIDRLbl ≠ "" →
      parseCIDR (mapGet (mergeDefaults l cn) cnNetworkCIDRLbl) = some (ip, pfx) →
      mapGet l ctrlIPLbl = "" → mapGet l replicaIPsLbl ≠ "" →
      1 ≤ hostCount pfx →
      ∃ q ips, setCN env dc p = .ok q ∧
        GetAvailableIPs (mapGet (mergeDefaults l cn) cnNetworkCIDRLbl) 1 = .ok ips ∧
        ips.length = 1 ∧
        pvcGet q ctrlIPLbl = ips.headD "" ∧
        pvcGet q replicaIPsLbl = mapGet l replicaIPsLbl) := by
  constructor
  · intro env dc p l cn ip pfx r hl hd hcn hncidr hparse hfe hbe hrc hr hcap
    have hkeys := CN_keys env.conf dc cn hcn
    have hnobe : ∀ d ∈ cn, d.1 ≠ replicaIPsLbl := by
      intro d hd2; rcases hkeys d hd2 with h | h | h <;> rw [h] <;> decide
    have hnorc : ∀ d ∈ cn, d.1 ≠ replicaCountLbl := by
      intro d hd2; rcases hkeys d hd2 with h | h | h <;> rw [h] <;> decide
    have hsubeq : CIDRSubnet (mapGet (mergeDefaults l cn) cnNetworkCIDRLbl) =
        .ok (ipToString (subnetBase ip pfx) ++ "/" ++ natToStr pfx) := by
      rw [CIDRSubnet, hparse]
    have hfe2 : mapGet (mapSet (mergeDefaults l cn) cnSubnetLbl (ipToString (subnetBase ip pfx) ++ "/" ++ natToStr pfx)) ctrlIPLbl = mapGet l ctrlIPLbl := by
      rw [mapGet_mapSet_ne _ _ _ _ (by decide), mergeDefaults_get_ne_empty cn l _ hfe]
    have hbe2 : mapGet (mapSet (mergeDefaults l cn) cnSubnetLbl (ipToString (subnetBase ip pfx) ++ "/" ++ natToStr pfx)) replicaIPsLbl = "" := by
      rw [mapGet_mapSet_ne _ _ _ _ (by decide), mergeDefaults_get_of_keys_ne cn l _ hnobe]
      exact hbe
    have hrc2 : atoi (pvcGet ({ p with labels := some (mapSet (mergeDefaults l cn) cnSubnetLbl (ipToString (subnetBase ip pfx) ++ "/" ++ natToStr pfx)) } : PVC) replicaCountLbl) =
        some (r : Int) := by
      rw [pvcGet_of_some _ _ _ rfl, mapGet_mapSet_ne _ _ _ _ (by decide),
        mergeDefaults_get_of_keys_ne cn l _ hnorc]
      exact hrc
    have hgb := getBackendCount_of _ _ hrc2
    have htn : ((r : Int)).toNat = r := by omega
    have hips : GetAvailableIPs (mapGet (mergeDefaults l cn) cnNetworkCIDRLbl)
        (r : Int) = .ok ((availableNats ip pfx (r : Int).toNat).map ipToString) :=
      GetAvailableIPs_ok_intro (mapGet (mergeDefaults l cn) cnNetworkCIDRLbl)
        (r : Int) ip pfx hparse (by omega) (by rw [htn]; exact hcap)
    have hrun : setCN env dc p =
        .ok { p with labels := some (mapSet (mapSet (mergeDefaults l cn) cnSubnetLbl (ipToString (subnetBase ip pfx) ++ "/" ++ natToStr pfx)) replicaIPsLbl (joinTrim ((availableNats ip pfx (r : Int).toNat).map ipToString))) } := by
      simp only [setCN, hl, beq_iff_eq, Bind.bind, Except.bind, Bool.and_eq_true,
        hcn, hsubeq] at *
      rw [if_neg hd, if_neg hncidr,
        if_neg (fun hc : _ ∧ _ => (hfe2 ▸ hfe : mapGet (mapSet (mergeDefaults l cn) cnSubnetLbl (ipToString (subnetBase ip pfx) ++ "/" ++ natToStr pfx)) ctrlIPLbl ≠ "") hc.1),
        if_neg (hfe2 ▸ hfe : ¬ mapGet (mapSet (mergeDefaults l cn) cnSubnetLbl (ipToString (subnetBase ip pfx) ++ "/" ++ natToStr pfx)) ctrlIPLbl = ""), if_pos hbe2]
      rw [setBackendIPs]
      simp only [Bind.bind, Except.bind, hgb, hips]
      rw [setBackendIPsAsString_of_some _ _ (mapSet (mergeDefaults l cn) cnSubnetLbl (ipToString (subnetBase ip pfx) ++ "/" ++ natToStr pfx)) rfl]
    refine ⟨_, ((availableNats ip pfx (r : Int).toNat).map ipToString), hrun, hips, ?_, ?_, ?_, ?_⟩
    · rw [List.length_map, availableNats, List.length_range', htn]
    · obtain ⟨hip32, hpfx32⟩ := parseCIDR_bounds _ ip pfx hparse
      have hcap2 : (r : Int).toNat ≤ hostCount pfx := by rw [htn]; exact hcap
      exact List.Nodup.map_on
        (fun x hx y hy he => ipToString_inj x y
          (availableNats_lt ip pfx _ hip32 hpfx32 hcap2 x hx)
          (availableNats_lt ip pfx _ hip32 hpfx32 hcap2 y hy) he)
        (List.nodup_range' _ _)
    · rw [pvcGet_of_some _ _ _ rfl, mapGet_mapSet_ne _ _ _ _ (by decide)]
      exact hfe2
    · rw [pvcGet_of_some _ _ _ rfl, mapGet_mapSet_self]
  · intro env dc p l cn ip pfx hl hd hcn hncidr hparse hfe hbe hcap
    have hkeys := CN_keys env.conf dc cn hcn
    have hnofe : ∀ d ∈ cn, d.1 ≠ ctrlIPLbl := by
      intro d hd2; rcases hkeys d hd2 with h | h | h <;> rw [h] <;> decide
    have hsubeq : CIDRSubnet (mapGet (mergeDefaults l cn) cnNetworkCIDRLbl) =
        .ok (ipToString (subnetBase ip pfx) ++ "/" ++ natToStr pfx) := by
      rw [CIDRSubnet, hparse]
    have hfe2 : mapGet (mapSet (mergeDefaults l cn) cnSubnetLbl (ipToString (subnetBase ip pfx) ++ "/" ++ natToStr pfx)) ctrlIPLbl = "" := by
      rw [mapGet_mapSet_ne _ _ _ _ (by decide), mergeDefaults_get_of_keys_ne cn l _ hnofe]
      exact hfe
    have hbe2 : mapGet (mapSet (mergeDefaults l cn) cnSubnetLbl (ipToString (subnetBase ip pfx) ++ "/" ++ natToStr pfx)) replicaIPsLbl = mapGet l replicaIPsLbl := by
      rw [mapGet_mapSet_ne _ _ _ _ (by decide), mergeDefaults_get_ne_empty cn l _ hbe]
    have hips : GetAvailableIPs (mapGet (mergeDefaults l cn) cnNetworkCIDRLbl) 1 =
        .ok ((availableNats ip pfx 1).map ipToString) :=
      GetAvailableIPs_ok_intro (mapGet (mergeDefaults l cn) cnNetworkCIDRLbl)
        1 ip pfx hparse (by omega) (by simpa using hcap)
    have hrun : setCN env dc p =
        .ok { p with labels := some (mapSet (mapSet (mergeDefaults l cn) cnSubnetLbl (ipToString (subnetBase ip pfx) ++ "/" ++ natToStr pfx)) ctrlIPLbl (((availableNats ip pfx 1).map ipToString).headD "")) } := by
      simp only [setCN, hl, beq_iff_eq, Bind.bind, Except.bind, Bool.and_eq_true,
        hcn, hsubeq, hips]
      rw [if_neg hd, if_neg hncidr,
        if_neg (fun hc : _ ∧ _ => (hbe2 ▸ hbe : mapGet (mapSet (mergeDefaults l cn) cnSubnetLbl (ipToString (subnetBase ip pfx) ++ "/" ++ natToStr pfx)) replicaIPsLbl ≠ "") hc.2),
        if_pos hfe2]
    refine ⟨_, ((availableNats ip pfx 1).map ipToString), hrun, hips, ?_, ?_, ?_⟩
    · rw [List.length_map, availableNats, List.length_range']
    · rw [pvcGet_of_some _ _ _ rfl, mapGet_mapSet_self]
    · rw [pvcGet_of_some _ _ _ rfl, mapGet_mapSet_ne _ _ _ _ (by decide)]
      exact hbe2

/-- C3 witness: a /28 subnet, replica count 2 — three ascending addresses
are drawn; the first becomes the frontend IP. -/
theorem C3_allocates_replica_plus_one_witness :
    ∃ q ips nats, setCN wEnv "dc1" wAlloc = .ok q ∧
      nats = availableNats 167772160 28 (1 + 2) ∧
      ips = nats.map ipToString ∧
      GetAvailableIPs (mapGet (mergeDefaults [(replicaCountLbl, "2")] wCN) cnNetworkCIDRLbl)
        (1 + ((2 : Nat) : Int)) = .ok ips ∧
      nats.length = 2 + 1 ∧
      nats.Nodup ∧
      ips.Nodup ∧
      (∀ a ∈ nats, subnetBase 167772160 28 < a ∧
        a < subnetBase 167772160 28 + 2 ^ (32 - 28) - 1) ∧
      ips.headD "" = ipToString (subnetBase 167772160 28 + 1) ∧
      pvcGet q ctrlIPLbl = ips.headD "" ∧
      pvcGet q replicaIPsLbl = joinTrim (ips.drop 1) ∧
      (ips.drop 1).length = 2 := by
  exact C3_allocates_replica_plus_one wEnv "dc1" wAlloc [(replicaCountLbl, "2")] wCN 167772160 28 2
    rfl (by decide) (by decide) (by decide) (by decide) (by decide) (by decide)
    (by decide) (by decide) (by decide)

/-- C4 witness: both partial states on a /28 subnet with replica
count 2. -/
theorem C4_partial_allocation_fills_missing_role_witness :
    (∃ q ips, setCN wEnv "dc1" wFEonly = .ok q ∧
      GetAvailableIPs (mapGet (mergeDefaults [(replicaCountLbl, "2"), (ctrlIPLbl, "10.0.0.9")] wCN) cnNetworkCIDRLbl)
        ((2 : Nat) : Int) = .ok ips ∧
      ips.length = 2 ∧
      ips.Nodup ∧
      pvcGet q ctrlIPLbl = mapGet [(replicaCountLbl, "2"), (ctrlIPLbl, "10.0.0.9")] ctrlIPLbl ∧
      pvcGet q replicaIPsLbl = joinTrim ips) ∧
    (∃ q ips, setCN wEnv "dc1" wBEonly = .ok q ∧
      GetAvailableIPs (mapGet (mergeDefaults [(replicaCountLbl, "2"), (replicaIPsLbl, "10.0.0.7,10.0.0.8")] wCN) cnNetworkCIDRLbl) 1 = .ok ips ∧
      ips.length = 1 ∧
      pvcGet q ctrlIPLbl = ips.headD "" ∧
      pvcGet q replicaIPsLbl = mapGet [(replicaCountLbl, "2"), (replicaIPsLbl, "10.0.0.7,10.0.0.8")] replicaIPsLbl) := by
  constructor
  · exact C4_partial_allocation_fills_missing_role.1 wEnv "dc1" wFEonly [(replicaCountLbl, "2"), (ctrlIPLbl, "10.0.0.9")] wCN
      167772160 28 2 rfl (by decide) (by decide) (by decide) (by decide) (by decide)
      (by decide) (by decide) (by decide) (by decide)
  · exact C4_partial_allocation_fills_missing_role.2 wEnv "dc1" wBEonly [(replicaCountLbl, "2"), (replicaIPsLbl, "10.0.0.7,10.0.0.8")] wCN
      167772160 28 rfl (by decide) (by decide) (by decide) (by decide) (by decide)
      (by decide) (by decide)

/-- C1 counterexample: a claim already carrying `"presetsubnet"` under
the subnet key resolves successfully, and resolution overwrites that
value with the subnet derived from the network CIDR. -/
theorem C1_subnet_overwrite_counterexample :
    pvcGet wPreset cnSubnetLbl = "presetsubnet" ∧
    "presetsubnet" ≠ "" ∧
    resolveGet wEnv wPreset cnSubnetLbl = some "10.0.0.0/28" ∧
    "presetsubnet" ≠ "10.0.0.0/28" := by decide

/-- C1 (amended): resolution never overwrites a non-empty property other
than the subnet key, which is unconditionally recomputed from the network
CIDR. -/
theorem C1_no_overwrite_except_subnet (env : Env) (c c' : PVC) (k : String)
    (h : provisionResolve env c = .ok c') (hk : k ≠ cnSubnetLbl)
    (hne : pvcGet c k ≠ "") : pvcGet c' k = pvcGet c k :=
  provisionResolve_pres env c c' h k hk hne

/-- C1 witness: the preset controller IP survives resolution. -/
theorem C1_no_overwrite_except_subnet_witness :
    ∃ c', provisionResolve wEnv wPreset = .ok c' ∧
      pvcGet c' ctrlIPLbl = pvcGet wPreset ctrlIPLbl := by
  cases hres : provisionResolve wEnv wPreset with
  | error e =>
    have hok : (provisionResolve wEnv wPreset).isOk = true := by decide
    rw [hres] at hok
    exact absurd hok (by rw [Except.isOk, Except.toBool]; simp)
  | ok c1 =>
    exact ⟨c1, rfl,
      C1_no_overwrite_except_subnet wEnv wPreset c1 ctrlIPLbl hres (by decide) (by decide)⟩

/-- C2 counterexample: on a claim whose one explicit replica IP disagrees
with its replica count of two and whose frontend IP is absent, resolution
succeeds and allocates a frontend address; the `ReplicaIPCountMismatch`
error only surfaces later, in topology building. -/
theorem C2_allocation_before_mismatch_counterexample :
    pvcGet wMismatch ctrlIPLbl = "" ∧
    resolveGet wEnv wMismatch ctrlIPLbl = some "10.0.0.1" ∧
    provisionPipeline wEnv wMismatch = .error (.replicaIPCountMismatch 1 2) := by decide

/-- C2 (amended): a replica-IP list whose length differs from the parsed
replica count makes topology building fail with `ReplicaIPCountMismatch`;
resolution itself does not detect the mismatch and still allocates a
frontend address when one is absent. -/
theorem C2_mismatch_fails_topology_build :
    (∀ (p : PVC) (l : List (String × String)) (r : Int),
      ¬ p.name = "" → p.labels = some l →
      (∀ k ∈ requiredKeys, mapGet l k ≠ "") →
      atoi (mapGet l replicaCountLbl) = some r → r ≠ 0 →
      ((splitComma (mapGet l replicaIPsLbl)).length : Int) ≠ r →
      PvcToJob (some p) =
        .error (.replicaIPCountMismatch (splitComma (mapGet l replicaIPsLbl)).length r)) ∧
    (∀ (env : Env) (dc : String) (p : PVC) (l cn : List (String × String))
      (ip pfx : Nat) (r : Int),
      p.labels = some l → dc ≠ "" → CN env.conf dc = .ok cn →
      mapGet (mergeDefaults l cn) cnNetworkCIDRLbl ≠ "" →
      parseCIDR (mapGet (mergeDefaults l cn) cnNetworkCIDRLbl) = some (ip, pfx) →
      mapGet l ctrlIPLbl = "" → mapGet l replicaIPsLbl ≠ "" →
      atoi (mapGet l replicaCountLbl) = some r →
      ((splitComma (mapGet l replicaIPsLbl)).length : Int) ≠ r →
      1 ≤ hostCount pfx →
      ∃ q, setCN env dc p = .ok q ∧ pvcGet q ctrlIPLbl ≠ "" ∧
        pvcGet q replicaIPsLbl = mapGet l replicaIPsLbl) := by
  constructor
  · intro p l r hn hl hreq hrc hr0 hmis
    simp only [PvcToJob, hl, beq_iff_eq, hrc]
    rw [if_neg hn, if_neg (hreq regionLbl (by decide)), if_neg (hreq dcLbl (by decide)),
      if_neg (hreq ctrlImageLbl (by decide)), if_neg (hreq ctrlIPLbl (by decide)),
      if_neg (hreq replicaIPsLbl (by decide)), if_neg (hreq cnTypeLbl (by decide)),
      if_neg (hreq cnSubnetLbl (by decide)), if_neg (hreq cnInterfaceLbl (by decide)),
      if_neg (hreq persistLocLbl (by decide)), if_neg (hreq storageSizeLbl (by decide))]
    simp only [setBEIPs]
    rw [if_neg hr0, if_pos hmis]
  · intro env dc p l cn ip pfx r hl hd hcn hncidr hparse hfe hbe hrc hmis hcap
    have hkeys := CN_keys env.conf dc cn hcn
    have hnofe : ∀ d ∈ cn, d.1 ≠ ctrlIPLbl := by
      intro d hd2; rcases hkeys d hd2 with h | h | h <;> rw [h] <;> decide
    have hsubeq : CIDRSubnet (mapGet (mergeDefaults l cn) cnNetworkCIDRLbl) =
        .ok (ipToString (subnetBase ip pfx) ++ "/" ++ natToStr pfx) := by
      rw [CIDRSubnet, hparse]
    have hfe2 : mapGet (mapSet (mergeDefaults l cn) cnSubnetLbl
        (ipToString (subnetBase ip pfx) ++ "/" ++ natToStr pfx)) ctrlIPLbl = "" := by
      rw [mapGet_mapSet_ne _ _ _ _ (by decide), mergeDefaults_get_of_keys_ne cn l _ hnofe]
      exact hfe
    have hbe2 : mapGet (mapSet (mergeDefaults l cn) cnSubnetLbl
        (ipToString (subnetBase ip pfx) ++ "/" ++ natToStr pfx)) replicaIPsLbl =
        mapGet l replicaIPsLbl := by
      rw [mapGet_mapSet_ne _ _ _ _ (by decide), mergeDefaults_get_ne_empty cn l _ hbe]
    have hips : GetAvailableIPs (mapGet (mergeDefaults l cn) cnNetworkCIDRLbl) 1 =
        .ok ((availableNats ip pfx 1).map ipToString) :=
      GetAvailableIPs_ok_intro (mapGet (mergeDefaults l cn) cnNetworkCIDRLbl)
        1 ip pfx hparse (by omega) (by simpa using hcap)
    have hrun : setCN env dc p = .ok
        { p with labels := some (mapSet (mapSet (mergeDefaults l cn) cnSubnetLbl
            (ipToString (subnetBase ip pfx) ++ "/" ++ natToStr pfx)) ctrlIPLbl
            (((availableNats ip pfx 1).map ipToString).headD "")) } := by
      simp only [setCN, hl, beq_iff_eq, Bind.bind, Except.bind, Bool.and_eq_true,
        hcn, hsubeq, hips]
      rw [if_neg hd, if_neg hncidr,
        if_neg (fun hc : _ ∧ _ =>
          (hbe2 ▸ hbe : mapGet (mapSet (mergeDefaults l cn) cnSubnetLbl
            (ipToString (subnetBase ip pfx) ++ "/" ++ natToStr pfx)) replicaIPsLbl ≠ "")
          hc.2),
        if_pos hfe2]
    refine ⟨_, hrun, ?_, ?_⟩
    · rw [pvcGet_of_some _ _ _ rfl, mapGet_mapSet_self]
      exact GetAvailableIPs_headD_ne_empty _ _ _ hips
    · rw [pvcGet_of_some _ _ _ rfl, mapGet_mapSet_ne _ _ _ _ (by decide)]
      exact hbe2

/-- C2 witness: both halves instantiated — the mismatched fully-labelled
claim fails topology building naming the counts, and the mismatched
claim with an absent frontend IP still gets one allocated by `setCN`. -/
theorem C2_mismatch_fails_topology_build_witness :
    PvcToJob (some ⟨"vol1", some
      [(regionLbl, "global"), (dcLbl, "dc1"), (ctrlImageLbl, "openebs/jiva:latest"),
       (ctrlIPLbl, "10.0.0.1"), (replicaIPsLbl, "10.0.0.5"), (cnTypeLbl, "host"),
       (cnSubnetLbl, "10.0.0.0/24"), (cnInterfaceLbl, "eth0"), (persistLocLbl, "/tmp/"),
       (storageSizeLbl, "5Gi"), (replicaCountLbl, "2")], none⟩) =
      .error (.replicaIPCountMismatch
        (splitComma (mapGet
          [(regionLbl, "global"), (dcLbl, "dc1"), (ctrlImageLbl, "openebs/jiva:latest"),
           (ctrlIPLbl, "10.0.0.1"), (replicaIPsLbl, "10.0.0.5"), (cnTypeLbl, "host"),
           (cnSubnetLbl, "10.0.0.0/24"), (cnInterfaceLbl, "eth0"), (persistLocLbl, "/tmp/"),
           (storageSizeLbl, "5Gi"), (replicaCountLbl, "2")] replicaIPsLbl)).length 2) ∧
    (∃ q, setCN wEnv "dc1" wMismatch = .ok q ∧ pvcGet q ctrlIPLbl ≠ "" ∧
      pvcGet q replicaIPsLbl =
        mapGet [(storageSizeLbl, "5G"), (replicaIPsLbl, "10.0.0.5"),
          (replicaCountLbl, "2")] replicaIPsLbl) := by
  constructor
  · exact C2_mismatch_fails_topology_build.1 _ _ 2 (by decide) rfl (by decide)
      (by decide) (by decide) (by decide)
  · exact C2_mismatch_fails_topology_build.2 wEnv "dc1" wMismatch
      [(storageSizeLbl, "5G"), (replicaIPsLbl, "10.0.0.5"), (replicaCountLbl, "2")]
      wCN 167772160 28 2 rfl (by decide) (by decide) (by decide) (by decide)
      (by decide) (by decide) (by decide) (by decide) (by decide)

/-- C9: resolution is idempotent — re-running the
resolution-and-allocation pipeline on an already-resolved claim whose
required properties (in particular the backend IP list) are all set
succeeds and leaves the claim unchanged. -/
theorem C9_resolution_idempotent (env : Env) (c c' : PVC)
    (h : provisionResolve env c = .ok c')
    (hbe : pvcGet c' replicaIPsLbl ≠ "") :
    provisionResolve env c' = .ok c' :=
  provisionResolve_idem env c c' h hbe

/-- C9 witness: re-resolving the concrete resolved claim is a no-op. -/
theorem C9_resolution_idempotent_witness :
    provisionResolve wEnv wClaim = .ok wResolved ∧
    provisionResolve wEnv wResolved = .ok wResolved :=
  ⟨by decide, C9_resolution_idempotent wEnv wClaim wResolved (by decide) (by decide)⟩

end Maya
